import Mathlib

/-!
Verification development for the phira-web-monitor repository.

Shallow embedding conventions:
* `f32` / `f64` values are modelled as exact rationals (`ℚ`).  All the
  constants appearing in the claims (0.15, 0.1, 0.2, 0.22, 0.4, 1.0, 4.5)
  are exact decimal fractions, so no floating-point rounding is relevant
  to the statements proved here.
* Rust mutation is modelled by explicit state passing; methods become
  functions `State → ... → State` (optionally paired with a list of
  observable effects such as audio commands).
* Fallible/panicking code is modelled with `Except`/`Option`.
* Wall-clock reads (`performance.now()` / `TimeManager::real_time_secs`)
  are modelled by threading the current wall time as an explicit argument.

Each embedded definition carries a comment naming the Rust item it
translates.  Definitions marked `Modelled from the spec:` correspond to
code of the repository that is referenced by the sources in `src/` (as a
caller) but whose body is not present in the snapshot.
-/

namespace PWM

/-! ## Animation evaluator — `monitor-common/src/core/anim.rs`

The claim-relevant value type instances (`f32`, the components of
`Vector`) tween by `a + (b - a) * t` and chain-add by `+`, so the value
type is modelled as `ℚ`.  A keyframe's easing (`TweenFn` dispatching to
`TWEEN_FUNCTIONS[id]`, a clamped window or a bezier) always denotes a
function `ℚ → ℚ`; the embedding stores that function directly.  The
entries of `TWEEN_FUNCTIONS` used by the claims are given below. -/

/-- Entry 0 of `TWEEN_FUNCTIONS` (`|_| 0.`, "Hold"). -/
def tweenHold : ℚ → ℚ := fun _ => 0

/-- Entry 1 of `TWEEN_FUNCTIONS` (`|_| 1.`, "Constant"). -/
def tweenConstant : ℚ → ℚ := fun _ => 1

/-- Entry 2 of `TWEEN_FUNCTIONS` (`|x| x`, "Linear"). -/
def tweenLinear : ℚ → ℚ := fun x => x

/-- Tweenable instance for `f32` (`core/tween.rs`): `a + (b - a) * t`. -/
def fTween (a b t : ℚ) : ℚ := a + (b - a) * t

/-- Keyframe (`core/anim.rs`, `Keyframe<T>`): time, value and the easing
selected by its `TweenFn` (`Keyframe::ease` dispatches the stored easing
variant to a pure function). -/
structure Keyframe where
  time : ℚ
  value : ℚ
  ease : ℚ → ℚ

/-- Animation (`core/anim.rs`, `Anim<T>`): current time, keyframes, the
segment cursor and an optional boxed chained animation.  `base` encodes
`next = None`, `chain` encodes `next = Some(box tail)`. -/
inductive Anim : Type where
  | base (time : ℚ) (keyframes : List Keyframe) (cursor : ℕ)
  | chain (time : ℚ) (keyframes : List Keyframe) (cursor : ℕ) (next : Anim)

namespace Anim

/-- Current-time field of the animation. -/
def time : Anim → ℚ
  | .base t _ _ => t
  | .chain t _ _ _ => t

/-- Keyframe list of the animation (the head of a chain). -/
def keyframes : Anim → List Keyframe
  | .base _ kfs _ => kfs
  | .chain _ kfs _ _ => kfs

/-- Segment cursor of the animation. -/
def cursor : Anim → ℕ
  | .base _ _ c => c
  | .chain _ _ c _ => c

/-- Optional chained tail of the animation. -/
def next : Anim → Option Anim
  | .base _ _ _ => none
  | .chain _ _ _ nx => some nx

/-- Forward cursor scan of `Anim::set_time`: the loop
`while let Some(kf) = keyframes.get(cursor + 1) { if kf.time > time break; cursor += 1 }`.
The fuel argument bounds the number of iterations; `kfs.length` steps
always suffice because the cursor strictly increases and the loop stops
once `cursor + 1` is out of range. -/
def scanForwardAux (kfs : List Keyframe) (t : ℚ) : ℕ → ℕ → ℕ
  | 0, c => c
  | fuel + 1, c =>
    match kfs.get? (c + 1) with
    | some kf => if kf.time > t then c else scanForwardAux kfs t fuel (c + 1)
    | none => c

/-- Forward cursor scan with its canonical fuel. -/
def scanForward (kfs : List Keyframe) (t : ℚ) (c : ℕ) : ℕ :=
  scanForwardAux kfs t kfs.length c

/-- Backward cursor scan of `Anim::set_time`: the loop
`while cursor != 0 && keyframes[cursor].time > time { cursor -= 1 }`.
In every reachable state the cursor is within bounds, so the `none`
case (an out-of-range index, which would panic in Rust) is immaterial;
it is resolved by leaving the cursor unchanged. -/
def scanBackward (kfs : List Keyframe) (t : ℚ) : ℕ → ℕ
  | 0 => 0
  | c + 1 =>
    match kfs.get? (c + 1) with
    | some kf => if kf.time > t then scanBackward kfs t c else c + 1
    | none => c + 1

/-- Translation of `Anim::set_time` (`core/anim.rs`): early return when
the keyframe list is empty or the time is unchanged (the chained tail is
not visited in that case), otherwise the forward then backward cursor
scans, and the recursive `set_time` on the chained tail. -/
def setTime : Anim → ℚ → Anim
  | .base tm kfs c, t =>
    if kfs.isEmpty ∨ t = tm then .base t kfs c
    else .base t kfs (scanBackward kfs t (scanForward kfs t c))
  | .chain tm kfs c nx, t =>
    if kfs.isEmpty ∨ t = tm then .chain t kfs c nx
    else .chain t kfs (scanBackward kfs t (scanForward kfs t c)) (nx.setTime t)

/-- Default keyframe used to totalize the (in-bounds, by the reachable
state invariant `cursor < keyframes.length`) list indexing of
`now_opt_inner`. -/
def dfltKf : Keyframe := ⟨0, 0, tweenLinear⟩

/-- Translation of `Anim::now_opt_inner` (`core/anim.rs`): `None` when
the keyframe list is empty; the last keyframe's value when the cursor
sits on the last keyframe; otherwise the tween of the cursor segment,
`T::tween(kf1.value, kf2.value, kf1.ease((time - kf1.time) / (kf2.time - kf1.time)))`.
Note that the progress ratio is not clamped to `[0, 1]`. -/
def nowOptInner (a : Anim) : Option ℚ :=
  if a.keyframes.isEmpty then none
  else if a.cursor = a.keyframes.length - 1 then
    some (a.keyframes.getD a.cursor dfltKf).value
  else
    let kf1 := a.keyframes.getD a.cursor dfltKf
    let kf2 := a.keyframes.getD (a.cursor + 1) dfltKf
    let u := (a.time - kf1.time) / (kf2.time - kf1.time)
    some (fTween kf1.value kf2.value (kf1.ease u))

/-- Translation of `Anim::now_opt` (`core/anim.rs`).  The `Except Unit`
layer models Rust panics: on a chained animation whose head has
keyframes, the source computes `T::add(now, next.now_opt().unwrap())`,
and the `unwrap()` panics (modelled as `Except.error ()`) when the
chained tail's sample is `None`, i.e. when the tail's own keyframe list
is empty. -/
def nowOpt : Anim → Except Unit (Option ℚ)
  | .base tm kfs c => .ok (nowOptInner (.base tm kfs c))
  | .chain tm kfs c nx =>
    match nowOptInner (.chain tm kfs c nx) with
    | none => .ok none
    | some now =>
      match nowOpt nx with
      | .error e => .error e
      | .ok none => .error ()
      | .ok (some v) => .ok (some (now + v))

end Anim

/-! ## Chart data model — `monitor-common/src/core/chart.rs`

The snapshot contains two versions of the note judge status: the
`core/chart.rs` enum whose `Judged` variant carries no payload (used by
`engine/chart.rs`), and the payload form `Judged(at, judgement)` written
by `chart_player.rs` and `game_monitor/game_scene.rs` and documented in
the data model.  The note/line/chart structures are therefore
parameterized by the judge-status type.  Fields of pure rendering state
(the `Object` transform animations, control objects, line kinds, height
and color animations, parents and `show_below`) are not read by any
embedded operation and are omitted. -/

/-- Judgement (`core/chart.rs`). -/
inductive Judgement : Type where
  | perfect | good | bad | miss
deriving DecidableEq

/-- Hit-sound kind (`core/chart.rs`). -/
inductive HitSound : Type where
  | click | drag | flick
  | custom (name : String)
deriving DecidableEq

/-- UI attachment slot (`core/chart.rs`). -/
inductive UIElement : Type where
  | pause | comboNumber | combo | score | bar | name | level
deriving DecidableEq

/-- Note kind (`core/chart.rs`); `hold` carries `end_time` and `end_height`. -/
inductive NoteKind : Type where
  | click
  | hold (endTime endHeight : ℚ)
  | flick
  | drag
deriving DecidableEq

/-- Judge status as in `core/chart.rs`: the `Judged` variant is a unit
variant (no time or judgement recorded).  `hold` fields are
`(perfect, at, diff, pre_judge, up_time)`. -/
inductive JudgeStatus : Type where
  | notJudged
  | preJudge
  | judged
  | hold (perfect : Bool) (at_ diff : ℚ) (preJudge : Bool) (upTime : ℚ)
deriving DecidableEq

/-- Judge status in the payload form used by `chart_player.rs` and
`game_scene.rs`: `Judged(at, judgement)`. -/
inductive JudgeStatusP : Type where
  | notJudged
  | preJudge
  | judged (at_ : ℚ) (j : Judgement)
  | hold (perfect : Bool) (at_ diff : ℚ) (preJudge : Bool) (upTime : ℚ)
deriving DecidableEq

/-- Rational stand-in for `f32::INFINITY` stored into a Hold status'
`up_time` field: it is only ever stored, never compared or read, by the
embedded operations, so any value above every finite `f32` works. -/
def f32Infinity : ℚ := 2 ^ 128

/-- Note (`core/chart.rs`), judge-status-polymorphic; transform
animations (`object`) omitted as unused by the embedded operations. -/
structure Note (σ : Type) where
  kind : NoteKind
  time : ℚ
  height : ℚ
  speed : ℚ
  above : Bool
  multipleHint : Bool
  fake : Bool
  hitsound : Option HitSound
  judge : σ
deriving DecidableEq

/-- Judge line (`core/chart.rs`); only the fields read by the embedded
operations (notes, z_index, attach_ui) are retained. -/
structure JudgeLine (σ : Type) where
  notes : List (Note σ)
  zIndex : ℤ
  attachUi : Option UIElement
deriving DecidableEq

/-- Chart (`core/chart.rs`); music, bpm list, settings and hitsound map
omitted as unused by the embedded operations. -/
structure Chart (σ : Type) where
  offset : ℚ
  lines : List (JudgeLine σ)
  order : List ℕ
deriving DecidableEq

/-- Judge event emitted by the judge update pass (`engine/judge.rs`). -/
inductive JudgeEventKind : Type where
  | judged (j : Judgement)
  | holdStart
  | holdTick (j : Judgement)
  | holdComplete (j : Judgement)
deriving DecidableEq

/-- Judge event with the originating line/note indices (`engine/judge.rs`). -/
structure JudgeEvent where
  kind : JudgeEventKind
  lineIdx : ℕ
  noteIdx : ℕ
deriving DecidableEq

/-! ## Engine judge pass — `monitor-client/src/engine/chart.rs`

`ChartRenderer::update_judges` as present in the snapshot: autoplay
transitions, the strict (non-autoplay) miss cutoff at 0.22 s, and the
Hold tick/completion machinery (`HOLD_PARTICLE_INTERVAL = 0.15`). -/

namespace EC

/-- Chart renderer state (`engine/chart.rs`, `ChartRenderer`); chart
info and the per-frame world matrices are omitted (pure rendering). -/
structure ChartRenderer where
  chart : Chart JudgeStatus
  time : ℚ
  autoplay : Bool
deriving DecidableEq

/-- Body of the per-note match inside `ChartRenderer::update_judges`. -/
def updateJudgesNote (autoplay : Bool) (t : ℚ) (lineIdx noteIdx : ℕ)
    (note : Note JudgeStatus) : Note JudgeStatus × List JudgeEvent :=
  if note.fake then (note, [])
  else
    match note.judge with
    | .notJudged =>
      if autoplay ∧ note.time ≤ t then
        match note.kind with
        | .hold _ _ =>
          ({ note with judge := .hold true t 0 false f32Infinity },
            [⟨.holdStart, lineIdx, noteIdx⟩])
        | _ =>
          ({ note with judge := .judged }, [⟨.judged .perfect, lineIdx, noteIdx⟩])
      else if ¬autoplay ∧ t - note.time > 0.22 then
        ({ note with judge := .judged }, [])
      else (note, [])
    | .hold perfect at_ diff preJ upT =>
      match note.kind with
      | .hold endTime _ =>
        if t ≥ endTime then
          ({ note with judge := .judged },
            [⟨.holdComplete (if perfect then .perfect else .good), lineIdx, noteIdx⟩])
        else if t > at_ then
          ({ note with judge := .hold perfect (at_ + 0.15) diff preJ upT },
            [⟨.holdTick (if perfect then .perfect else .good), lineIdx, noteIdx⟩])
        else (note, [])
      | _ => (note, [])
    | _ => (note, [])

/-- Inner `for (note_idx, note)` loop of `update_judges`. -/
def updateJudgesNotes (autoplay : Bool) (t : ℚ) (lineIdx : ℕ) :
    ℕ → List (Note JudgeStatus) → List (Note JudgeStatus) × List JudgeEvent
  | _, [] => ([], [])
  | noteIdx, n :: rest =>
    let r := updateJudgesNote autoplay t lineIdx noteIdx n
    let rr := updateJudgesNotes autoplay t lineIdx (noteIdx + 1) rest
    (r.1 :: rr.1, r.2 ++ rr.2)

/-- Outer `for (line_idx, line)` loop of `update_judges`. -/
def updateJudgesLines (autoplay : Bool) (t : ℚ) :
    ℕ → List (JudgeLine JudgeStatus) → List (JudgeLine JudgeStatus) × List JudgeEvent
  | _, [] => ([], [])
  | lineIdx, l :: rest =>
    let r := updateJudgesNotes autoplay t lineIdx 0 l.notes
    let rr := updateJudgesLines autoplay t (lineIdx + 1) rest
    ({ l with notes := r.1 } :: rr.1, r.2 ++ rr.2)

/-- Translation of `ChartRenderer::update_judges` (`engine/chart.rs`):
no judge updates when `dt <= 0`; otherwise the per-note pass. -/
def update_judges (cr : ChartRenderer) (resTime resDt : ℚ) :
    ChartRenderer × List JudgeEvent :=
  if resDt ≤ 0 then (cr, [])
  else
    let r := updateJudgesLines cr.autoplay resTime 0 cr.chart.lines
    ({ cr with chart := { cr.chart with lines := r.1 } }, r.2)

/-- One render frame of the engine pipeline: `ChartRenderer::update`
(which records `res.dt = time - self.time` and `self.time = time`)
followed by `update_judges`.  The chart-wide `set_time` on animations
has no effect on the judge state and is omitted. -/
def renderStep (cr : ChartRenderer) (t : ℚ) : ChartRenderer × List JudgeEvent :=
  let dt := t - cr.time
  update_judges { cr with time := t } t dt

/-- Repeated render frames at the given schedule of times, collecting
the emitted judge events in order. -/
def runFrames (cr : ChartRenderer) : List ℚ → ChartRenderer × List JudgeEvent
  | [] => (cr, [])
  | t :: ts =>
    let r := renderStep cr t
    let rr := runFrames r.1 ts
    (rr.1, r.2 ++ rr.2)

end EC

/-! ## ChartPlayer strict/autoplay hook — `monitor-client/src/chart_player.rs`

The judge hook closure passed by `ChartPlayer::render` to
`update_judges`: autoplay judges `note.time ≤ t` notes Perfect (Hold
notes enter the Hold state), while in non-autoplay (strict) mode a
note is marked `Judged(t, Miss)` once `t - note.time > 0.160`. -/

namespace CP

/-- Body of the per-note logic of the `ChartPlayer::render` judge hook
(`chart_player.rs` lines 127–158). -/
def playerHookNote (autoplay : Bool) (t : ℚ) (lineIdx noteIdx : ℕ)
    (note : Note JudgeStatusP) : Note JudgeStatusP × List JudgeEvent :=
  if note.fake then (note, [])
  else
    match note.judge with
    | .notJudged =>
      if autoplay ∧ note.time ≤ t then
        match note.kind with
        | .hold _ _ =>
          ({ note with judge := .hold true t 0 false f32Infinity },
            [⟨.holdStart, lineIdx, noteIdx⟩])
        | _ =>
          ({ note with judge := .judged t .perfect },
            [⟨.judged .perfect, lineIdx, noteIdx⟩])
      else if ¬autoplay ∧ t - note.time > 0.16 then
        ({ note with judge := .judged t .miss }, [])
      else (note, [])
    | _ => (note, [])

/-- Inner note loop of the hook. -/
def playerHookNotes (autoplay : Bool) (t : ℚ) (lineIdx : ℕ) :
    ℕ → List (Note JudgeStatusP) → List (Note JudgeStatusP) × List JudgeEvent
  | _, [] => ([], [])
  | noteIdx, n :: rest =>
    let r := playerHookNote autoplay t lineIdx noteIdx n
    let rr := playerHookNotes autoplay t lineIdx (noteIdx + 1) rest
    (r.1 :: rr.1, r.2 ++ rr.2)

/-- Outer line loop of the hook: the full judge hook of
`ChartPlayer::render`. -/
def playerHook (autoplay : Bool) (t : ℚ) :
    ℕ → List (JudgeLine JudgeStatusP) → List (JudgeLine JudgeStatusP) × List JudgeEvent
  | _, [] => ([], [])
  | lineIdx, l :: rest =>
    let r := playerHookNotes autoplay t lineIdx 0 l.notes
    let rr := playerHook autoplay t (lineIdx + 1) rest
    ({ l with notes := r.1 } :: rr.1, r.2 ++ rr.2)

end CP

/-! ## Chart order computation — `monitor-client/src/game_monitor.rs`
(`fetch_and_parse_chart`, lines 437–438) and
`monitor-client/src/chart_player.rs` (`load_chart`, lines 247–248):
`chart.order = (0..chart.lines.len()).collect();`
`chart.order.sort_by_key(|&i| chart.lines[i].z_index);`
`Vec::sort_by_key` is a stable sort, modelled by `List.mergeSort`. -/

/-- Z-index of the line at the given index (the `chart.lines[i].z_index`
sort key; indices produced by `List.range` are always in bounds). -/
def zIndexAt {σ : Type} (lines : List (JudgeLine σ)) (i : ℕ) : ℤ :=
  ((lines.get? i).map JudgeLine.zIndex).getD 0

/-- Translation of the order computation performed after chart
deserialization by both clients. -/
def computeOrder {σ : Type} (lines : List (JudgeLine σ)) : List ℕ :=
  (List.range lines.length).mergeSort
    (fun i j => decide (zIndexAt lines i ≤ zIndexAt lines j))

/-! ## Chart cache — `monitor-proxy/src/chart/cache.rs`

`acquire` opens and exclusively locks `{id}.meta`, parses it
(`serde_json::from_reader(..).ok()`), and returns HIT iff the parsed
meta's `chart_updated` equals the requested one.  The filesystem state
relevant to the decision is the parse result of the meta file and the
presence of the companion `.bin` file (the latter is part of the model
state so that the claim about it can be stated; the source never
consults it). -/

namespace Cache

/-- Relevant on-disk state for one cache id at `acquire` time. -/
structure CacheState where
  /-- Result of parsing `{id}.meta`: `some chart_updated` when the meta
  parses, `none` when the file is absent, empty or malformed. -/
  metaParsed : Option String
  /-- Whether `{id}.bin` exists on disk. -/
  binExists : Bool
deriving DecidableEq

/-- Outcome of `acquire` (`CacheResult::Hit(path)` / `Miss(guard)`);
the path and guard payloads carry no decision-relevant data. -/
inductive CacheResult : Type where
  | hit | miss
deriving DecidableEq

/-- Translation of the decision logic of `acquire`
(`cache.rs` lines 57–71): HIT iff the cached meta parsed and its
`chart_updated` equals the requested one; otherwise MISS. -/
def acquire (st : CacheState) (chartUpdated : String) : CacheResult :=
  match st.metaParsed with
  | some m => if m = chartUpdated then .hit else .miss
  | none => .miss

end Cache

/-! ## Per-player live scene — `monitor-client/src/game_monitor/game_scene.rs`
and `monitor-client/src/time.rs`

Wall-clock reads are threaded explicitly: every operation that calls
`TimeManager::real_time_secs` receives the current wall time (seconds)
as an argument; `GameScene::render` receives `now` in milliseconds (the
`performance.now()` value) and derives `wall = now / 1000`.  Audio and
renderer calls are recorded as an effect list. -/

namespace GS

/-- Time manager (`time.rs`): wall-clock seconds anchoring game time 0,
plus the wall-clock instant at which a pause began. -/
structure TimeManager where
  startTime : ℚ
  pauseTime : Option ℚ
deriving DecidableEq

namespace TimeManager

/-- Translation of `TimeManager::now`. -/
def now (tm : TimeManager) (wall : ℚ) : ℚ :=
  tm.pauseTime.getD wall - tm.startTime

/-- Translation of `TimeManager::paused`. -/
def paused (tm : TimeManager) : Bool :=
  tm.pauseTime.isSome

/-- Translation of `TimeManager::pause`. -/
def pause (tm : TimeManager) (wall : ℚ) : TimeManager :=
  if tm.pauseTime.isSome then tm else { tm with pauseTime := some wall }

/-- Translation of `TimeManager::resume`. -/
def resume (tm : TimeManager) (wall : ℚ) : TimeManager :=
  match tm.pauseTime with
  | some pt => { startTime := tm.startTime + (wall - pt), pauseTime := none }
  | none => tm

/-- Translation of `TimeManager::seek_to`. -/
def seek_to (tm : TimeManager) (wall pos : ℚ) : TimeManager :=
  { tm with startTime := tm.pauseTime.getD wall - pos }

/-- Translation of `TimeManager::reset`. -/
def reset (wall : ℚ) : TimeManager :=
  { startTime := wall, pauseTime := none }

end TimeManager

/-- Judgement tags of the multiplayer protocol (`phira_mp_common`). -/
inductive MpJudgement : Type where
  | perfect | good | bad | miss | holdPerfect | holdGood
deriving DecidableEq

/-- Judge event of the multiplayer protocol (`phira_mp_common::JudgeEvent`). -/
structure MpJudgeEvent where
  time : ℚ
  lineId : ℕ
  noteId : ℕ
  judgement : MpJudgement
deriving DecidableEq

/-- Active-touch bookkeeping (`game_scene.rs`, `ActiveTouch`); the
position animation is pure overlay state and is omitted. -/
structure ActiveTouch where
  startTime : ℚ
  lastUpdate : ℚ
  endTime : Option ℚ
deriving DecidableEq

/-- Hardware-bound rendering context (`game_scene.rs`, `RenderContext`);
only `resource.dt` is observable to the embedded logic. -/
structure RenderCtx where
  resDt : ℚ
deriving DecidableEq

/-- Chart renderer owned by a scene, with the payload judge statuses
used by the client sources. -/
structure ChartRendererP where
  chart : Chart JudgeStatusP
  time : ℚ
  autoplay : Bool
deriving DecidableEq

/-- Observable effects of scene operations: renderer clears/flushes and
audio-engine commands. -/
inductive Effect : Type where
  | rClear
  | rBegin
  | rFlush
  | audioPlay (pos : ℚ)
  | audioPause
  | playHitsound (h : HitSound)
  | syncAudio
deriving DecidableEq

/-- Per-player scene state (`game_scene.rs`, `GameScene`). -/
structure GameScene where
  userId : ℤ
  renderCtx : Option RenderCtx
  chartRenderer : Option ChartRendererP
  time : TimeManager
  judgePauseTime : Option ℚ
  targetTime : Option ℚ
  unpauseSignal : Option ℚ
  startWallTime : Option ℚ
  pendingJudges : List MpJudgeEvent
  activeTouches : List (ℤ × ActiveTouch)
  fadingTouches : List ActiveTouch
deriving DecidableEq

/-- Translation of `GameScene::new_headless`. -/
def new_headless (userId : ℤ) (wall : ℚ) : GameScene :=
  { userId
    renderCtx := none
    chartRenderer := none
    time := (TimeManager.reset wall).pause wall
    judgePauseTime := none
    targetTime := none
    unpauseSignal := none
    startWallTime := none
    pendingJudges := []
    activeTouches := []
    fadingTouches := [] }

/-- Translation of `GameScene::start`: no-op when already started,
otherwise reset and pause the clock and record the wall anchor (ms). -/
def start (s : GameScene) (wall : ℚ) : GameScene :=
  if s.startWallTime.isSome then s
  else
    { s with
      time := (TimeManager.reset wall).pause wall
      startWallTime := some (wall * 1000) }

/-- Translation of `GameScene::push_judges`: append to the pending
queue, record the last event's time as the unpause signal, and raise
`target_time` to at least that time. -/
def push_judges (s : GameScene) (judges : List MpJudgeEvent) : GameScene :=
  match judges.getLast? with
  | none => { s with pendingJudges := s.pendingJudges ++ judges }
  | some last =>
    { s with
      pendingJudges := s.pendingJudges ++ judges
      unpauseSignal := some last.time
      targetTime := some (max (s.targetTime.getD last.time) last.time) }

/-- Modelled from the spec: `ChartRenderer::clear_stale_notes` is called
from `game_scene.rs` but its body is absent from the snapshot's
`engine/chart.rs`.  Following §4.3.6, every non-fake note still
`NotJudged` with `player_time - note.time > 0.200` is set to
`Judged(player_time, Miss)`. -/
def clearStaleNote (playerTime : ℚ) (note : Note JudgeStatusP) : Note JudgeStatusP :=
  if ¬note.fake ∧ note.judge = .notJudged ∧ playerTime - note.time > 0.2 then
    { note with judge := .judged playerTime .miss }
  else note

/-- Modelled from the spec: the chart-wide stale-note sweep (§4.3.6). -/
def clear_stale_notes (cr : ChartRendererP) (playerTime : ℚ) : ChartRendererP :=
  { cr with
    chart :=
      { cr.chart with
        lines := cr.chart.lines.map fun l =>
          { l with notes := l.notes.map (clearStaleNote playerTime) } } }

/-- Modelled from the spec: `ChartRenderer::has_unjudged` is called from
`game_scene.rs` but its body is absent from the snapshot.  Following R3
(§4.3.2), it reports whether any unjudged non-fake note has
`current_time - note.time > UNJUDGED_LIMIT` (0.400 s). -/
def has_unjudged (cr : ChartRendererP) (t : ℚ) : Bool :=
  cr.chart.lines.any fun l =>
    l.notes.any fun n =>
      !n.fake && decide (n.judge = .notJudged) && decide (t - n.time > 0.4)

/-- Translation of the judge hook closure of `GameScene::render`
(lines 404–459) applied to one drained event: look up the referenced
line and note (silently dropping the event when either is missing),
then overwrite the note's status per the event's judgement. -/
def applyMpEvent (chart : Chart JudgeStatusP) (t : ℚ) (ev : MpJudgeEvent) :
    Chart JudgeStatusP × List JudgeEvent :=
  match chart.lines.get? ev.lineId with
  | none => (chart, [])
  | some line =>
    match line.notes.get? ev.noteId with
    | none => (chart, [])
    | some note =>
      match ev.judgement with
      | .holdPerfect =>
        ({ chart with
            lines := chart.lines.set ev.lineId
              { line with
                notes := line.notes.set ev.noteId
                  { note with judge := .hold true t 0 false f32Infinity } } },
          [⟨.holdStart, ev.lineId, ev.noteId⟩])
      | .holdGood =>
        ({ chart with
            lines := chart.lines.set ev.lineId
              { line with
                notes := line.notes.set ev.noteId
                  { note with judge := .hold false t 0 false f32Infinity } } },
          [⟨.holdStart, ev.lineId, ev.noteId⟩])
      | j =>
        let jj : Judgement :=
          match j with
          | .perfect => .perfect
          | .good => .good
          | .bad => .bad
          | _ => .miss
        ({ chart with
            lines := chart.lines.set ev.lineId
              { line with
                notes := line.notes.set ev.noteId
                  { note with judge := .judged ev.time jj } } },
          [⟨.judged jj, ev.lineId, ev.noteId⟩])

/-- Translation of the drain loop of the judge hook: pop pending events
while `event.time ≤ t`, applying each to the chart. -/
def drainJudges (chart : Chart JudgeStatusP) (t : ℚ) :
    List MpJudgeEvent → Chart JudgeStatusP × List MpJudgeEvent × List JudgeEvent
  | [] => (chart, [], [])
  | ev :: rest =>
    if ev.time > t then (chart, ev :: rest, [])
    else
      let a := applyMpEvent chart t ev
      let d := drainJudges a.1 t rest
      (d.1, d.2.1, a.2 ++ d.2.2)

/-- Modelled from the spec: Hold advancement of the hook-taking
`update_judges` (§4.3.3, §4.3.5) in the payload judge-status world:
at `t ≥ end_time` emit `HoldComplete` and commit
`Judged(t, perfect ? Perfect : Good)`; otherwise when `t` exceeds the
stored tick time, advance it by `HOLD_PARTICLE_INTERVAL` (0.15 s) and
emit one `HoldTick`. -/
def holdPassNote (t : ℚ) (lineIdx noteIdx : ℕ) (note : Note JudgeStatusP) :
    Note JudgeStatusP × List JudgeEvent :=
  if note.fake then (note, [])
  else
    match note.judge with
    | .hold perfect at_ diff preJ upT =>
      match note.kind with
      | .hold endTime _ =>
        if t ≥ endTime then
          ({ note with judge := .judged t (if perfect then .perfect else .good) },
            [⟨.holdComplete (if perfect then .perfect else .good), lineIdx, noteIdx⟩])
        else if t > at_ then
          ({ note with judge := .hold perfect (at_ + 0.15) diff preJ upT },
            [⟨.holdTick (if perfect then .perfect else .good), lineIdx, noteIdx⟩])
        else (note, [])
      | _ => (note, [])
    | _ => (note, [])

/-- Note loop of the Hold advancement pass. -/
def holdPassNotes (t : ℚ) (lineIdx : ℕ) :
    ℕ → List (Note JudgeStatusP) → List (Note JudgeStatusP) × List JudgeEvent
  | _, [] => ([], [])
  | noteIdx, n :: rest =>
    let r := holdPassNote t lineIdx noteIdx n
    let rr := holdPassNotes t lineIdx (noteIdx + 1) rest
    (r.1 :: rr.1, r.2 ++ rr.2)

/-- Line loop of the Hold advancement pass. -/
def holdPassLines (t : ℚ) :
    ℕ → List (JudgeLine JudgeStatusP) → List (JudgeLine JudgeStatusP) × List JudgeEvent
  | _, [] => ([], [])
  | lineIdx, l :: rest =>
    let r := holdPassNotes t lineIdx 0 l.notes
    let rr := holdPassLines t (lineIdx + 1) rest
    ({ l with notes := r.1 } :: rr.1, r.2 ++ rr.2)

/-- Modelled from the spec: the hook-taking `ChartRenderer::update_judges`
called by `game_scene.rs` and `chart_player.rs` is absent from the
snapshot's `engine/chart.rs` (which only has a hookless variant).  Per
§4.3.5 and the design notes, it runs the caller's judge hook and then
advances Hold ticks and completions; the `dt ≤ 0` guard (no judge
updates when paused or seeking backward) is retained from the hookless
source. -/
def update_judges_gs (cr : ChartRendererP) (t dt : ℚ) (pending : List MpJudgeEvent) :
    ChartRendererP × List MpJudgeEvent × List JudgeEvent :=
  if dt ≤ 0 then (cr, pending, [])
  else
    let d := drainJudges cr.chart t pending
    let h := holdPassLines t 0 d.1.lines
    ({ cr with chart := { d.1 with lines := h.1 } }, d.2.1, d.2.2 ++ h.2)

/-- Default hitsound per note kind (`game_scene.rs` lines 467–471). -/
def defaultHitsound : NoteKind → HitSound
  | .click => .click
  | .hold _ _ => .click
  | .drag => .drag
  | .flick => .flick

/-- Translation of the hitsound loop of `GameScene::render`
(lines 462–476): skip Miss/Bad judgements, play on Judged/HoldStart,
with the note's explicit hitsound override winning over the default. -/
def hitsoundEffects (chart : Chart JudgeStatusP) (events : List JudgeEvent) :
    List Effect :=
  events.filterMap fun e =>
    match e.kind with
    | .judged .miss => none
    | .judged .bad => none
    | .judged _ | .holdStart =>
      match (chart.lines.get? e.lineIdx).bind (fun l => l.notes.get? e.noteIdx) with
      | some note => some (.playHitsound (note.hitsound.getD (defaultHitsound note.kind)))
      | none => none
    | _ => none

/-- Translation of the state changes of `GameScene::render_touches`
(lines 543–599): sweep active touches stale for more than 2 s into the
fading list with a synthetic end time, then drop fading touches past
`end_time + TOUCH_FADE_TIME` (0.3 s).  Drawing is pure rendering. -/
def render_touches (s : GameScene) (t : ℚ) : GameScene :=
  match s.renderCtx with
  | none => s
  | some _ =>
    let stale := s.activeTouches.filter fun p => decide (t - p.2.lastUpdate > 2)
    let kept := s.activeTouches.filter fun p => !decide (t - p.2.lastUpdate > 2)
    let moved := stale.map fun p => { p.2 with endTime := some t }
    let fading := (s.fadingTouches ++ moved).filter fun touch =>
      match touch.endTime with
      | some e => !decide (t > e + 0.3)
      | none => true
    { s with activeTouches := kept, fadingTouches := fading }

/-- Translation of `GameScene::attach_canvas`: no-op when already
attached; otherwise create the rendering context, sync audio with a
loaded chart, and — when the scene is already started and has a
buffered target time — seek the clock to `max(target - SEEK_OFFSET, 0)`
(`SEEK_OFFSET = 0.1`). -/
def attach_canvas (s : GameScene) (wall : ℚ) : GameScene × List Effect :=
  if s.renderCtx.isSome then (s, [])
  else
    let s1 := { s with renderCtx := some { resDt := 0 } }
    let syncEffects : List Effect := if s1.chartRenderer.isSome then [.syncAudio] else []
    let s2 :=
      if s1.startWallTime.isSome then
        match s1.targetTime with
        | some target =>
          { s1 with time := s1.time.seek_to wall (max (target - 0.1) 0) }
        | none => s1
      else s1
    (s2, syncEffects)

/-- Translation of `GameScene::detach_canvas`: pause audio and drop the
rendering context; all headless state is preserved. -/
def detach_canvas (s : GameScene) : GameScene × List Effect :=
  match s.renderCtx with
  | some _ => ({ s with renderCtx := none }, [.audioPause])
  | none => (s, [])

/-- Effective start deadline of R1 (`game_scene.rs` lines 329–341):
`start_wall + START_DELAY_SECS·1000`, capped at the wall instant of a
buffered `target_time`. -/
def effectiveDeadline (startWall : ℚ) (targetTime : Option ℚ) : ℚ :=
  let deadline := startWall + 4.5 * 1000
  match targetTime with
  | some target => min deadline (startWall + target * 1000)
  | none => deadline

/-- R1/R2 start block of `GameScene::render` (lines 345–356): when the
clock is still paused and the scene is not paused-for-judge, seek to
`max(target_time - SEEK_OFFSET, 0)` and start audio there (or start
both at 0 without a buffered target). -/
def renderStart (s : GameScene) (wall : ℚ) : GameScene × List Effect :=
  if s.time.paused ∧ s.judgePauseTime = none then
    match s.targetTime with
    | some target =>
      let seekPos := max (target - 0.1) 0
      ({ s with time := (s.time.seek_to wall seekPos).resume wall },
        [.audioPlay seekPos])
    | none => ({ s with time := s.time.resume wall }, [.audioPlay 0])
  else (s, [])

/-- R4 resume block of `GameScene::render` (lines 361–381): consume the
unpause signal; when paused-for-judge, seek to
`max(paused_time - 1.000, 0)`, resume, sweep stale notes at the rewound
time, and restart audio there. -/
def renderResume (s : GameScene) (wall : ℚ) : GameScene × List Effect :=
  match s.unpauseSignal with
  | none => (s, [])
  | some _ =>
    let s2 := { s with unpauseSignal := none }
    match s2.judgePauseTime with
    | none => (s2, [])
    | some pausedTime =>
      let resumeTime := max (pausedTime - 1) 0
      ({ s2 with
          judgePauseTime := none
          time := (s2.time.seek_to wall resumeTime).resume wall
          chartRenderer := s2.chartRenderer.map (clear_stale_notes · resumeTime) },
        [.audioPlay resumeTime])

/-- Chart block of `GameScene::render` (lines 397–495): chart update
(recording `res.dt`), the hook-driven judge pass, hitsounds, and the R3
strict-pause check. -/
def renderChart (s : GameScene) (ctx : RenderCtx) (wall currentTime : ℚ) :
    GameScene × RenderCtx × List Effect :=
  match s.chartRenderer with
  | none => (s, ctx, [])
  | some cr =>
    let dt := currentTime - cr.time
    let cr1 := { cr with time := currentTime }
    let ctx2 := { ctx with resDt := dt }
    let uj := update_judges_gs cr1 currentTime dt s.pendingJudges
    let hitEffects := hitsoundEffects uj.1.chart uj.2.2
    let s4 := { s with chartRenderer := some uj.1, pendingJudges := uj.2.1 }
    if s4.judgePauseTime = none ∧ has_unjudged uj.1 currentTime then
      ({ s4 with judgePauseTime := some currentTime, time := s4.time.pause wall },
        ctx2, hitEffects ++ [.audioPause])
    else (s4, ctx2, hitEffects)

/-- Main frame body of `GameScene::render` past the R1 gate: start the
clock if due, resolve R4, compute `current_time`, run the chart block
and the touch overlay, and concatenate the frame's effects in program
order.  `GameScene::render` receives `now` in milliseconds
(`performance.now()`); `wall = now / 1000` is the same instant in
seconds as observed by the `TimeManager` calls inside the frame. -/
def renderMain (s : GameScene) (ctx : RenderCtx) (wall : ℚ) :
    GameScene × List Effect :=
  let startStep := renderStart s wall
  let resumeStep := renderResume startStep.1 wall
  let s3 := resumeStep.1
  let currentTime := s3.judgePauseTime.getD (s3.time.now wall)
  let ctx1 := if s3.judgePauseTime.isSome then { ctx with resDt := 0 } else ctx
  let chartStep := renderChart s3 ctx1 wall currentTime
  let s5 := render_touches chartStep.1 currentTime
  ({ s5 with renderCtx := some chartStep.2.1 },
    startStep.2 ++ resumeStep.2 ++ [.rClear, .rBegin] ++ chartStep.2.2 ++ [.rFlush])

/-- Entry point of `GameScene::render`: headless and not-started guards
and the R1 start-delay gate, then the main frame body. -/
def render (s : GameScene) (now : ℚ) : GameScene × List Effect :=
  let wall := now / 1000
  match s.renderCtx with
  | none => (s, [])
  | some ctx =>
    match s.startWallTime with
    | none => (s, [.rClear, .rFlush])
    | some startWall =>
      if now < effectiveDeadline startWall s.targetTime then
        ({ s with renderCtx := some { ctx with resDt := 0 } }, [])
      else
        renderMain s ctx wall

end GS

/-! ## Concrete instances used by counterexamples and witnesses -/

/-- Note lookup by line/note index in an engine chart renderer. -/
def noteAt (cr : EC.ChartRenderer) (li ni : ℕ) : Option (Note JudgeStatus) :=
  (cr.chart.lines.get? li).bind fun l => l.notes.get? ni

/-- Note lookup by line/note index in a scene chart renderer. -/
def noteAtP (cr : GS.ChartRendererP) (li ni : ℕ) : Option (Note JudgeStatusP) :=
  (cr.chart.lines.get? li).bind fun l => l.notes.get? ni

/-- Click note at time 2 s, unjudged, in the payload judge-status world. -/
def strictNote : Note JudgeStatusP :=
  { kind := .click, time := 2, height := 0, speed := 1, above := true,
    multipleHint := false, fake := false, hitsound := none, judge := .notJudged }

/-- Single line holding `strictNote`. -/
def strictLine : JudgeLine JudgeStatusP :=
  { notes := [strictNote], zIndex := 0, attachUi := none }

/-- Click note at time 2 s, unjudged, with the unit judge status of
`core/chart.rs`. -/
def ecStrictNote : Note JudgeStatus :=
  { kind := .click, time := 2, height := 0, speed := 1, above := true,
    multipleHint := false, fake := false, hitsound := none, judge := .notJudged }

/-- Engine chart renderer in strict (non-autoplay) mode with the single
note `ecStrictNote`. -/
def ecStrictCr : EC.ChartRenderer :=
  { chart :=
      { offset := 0
        lines := [{ notes := [ecStrictNote], zIndex := 0, attachUi := none }]
        order := [0] }
    time := 0
    autoplay := false }

/-- Engine chart renderer with a single non-fake Hold note
(`time = noteTime`, `end_time = endT`) in state
`Hold(perfect, at, 0, false, ∞)`, current chart time `τ`, live mode. -/
def mkHoldCR (noteTime : ℚ) (perfect : Bool) (endT a τ : ℚ) : EC.ChartRenderer :=
  { chart :=
      { offset := 0
        lines :=
          [{ notes :=
              [{ kind := .hold endT 0, time := noteTime, height := 0, speed := 1,
                 above := true, multipleHint := false, fake := false, hitsound := none,
                 judge := .hold perfect a 0 false f32Infinity }]
             zIndex := 0
             attachUi := none }]
        order := [0] }
    time := τ
    autoplay := false }

/-- Engine chart renderer in the terminal state of the `mkHoldCR`
scenario: the Hold note has been committed to `Judged`. -/
def mkDoneCR (noteTime : ℚ) (endT τ : ℚ) : EC.ChartRenderer :=
  { chart :=
      { offset := 0
        lines :=
          [{ notes :=
              [{ kind := .hold endT 0, time := noteTime, height := 0, speed := 1,
                 above := true, multipleHint := false, fake := false, hitsound := none,
                 judge := .judged }]
             zIndex := 0
             attachUi := none }]
        order := [0] }
    time := τ
    autoplay := false }

/-- Hold-tick event of the single-note scenario. -/
def tickEv (perfect : Bool) : JudgeEvent :=
  ⟨.holdTick (if perfect then .perfect else .good), 0, 0⟩

/-- Hold-complete event of the single-note scenario. -/
def completeEv (perfect : Bool) : JudgeEvent :=
  ⟨.holdComplete (if perfect then .perfect else .good), 0, 0⟩

/-- Render schedule at 20 fps game time: frames every 0.05 s from 1.05
through 2.00. -/
def framesC4 : List ℚ :=
  (List.range 20).map fun i => 1.05 + 0.05 * i

/-- Judge line with a UI attachment (its index must be excluded from
`order` according to the `Chart::order` documentation). -/
def uiLineEx : JudgeLine JudgeStatusP :=
  { notes := [], zIndex := 0, attachUi := some .pause }

/-- Attached started scene with a buffered target time of 2 s and the
clock paused at game time 0, before the start delay has elapsed. -/
def sceneC7 : GS.GameScene :=
  { userId := 1
    renderCtx := some { resDt := 0 }
    chartRenderer := none
    time := { startTime := 0, pauseTime := some 0 }
    judgePauseTime := none
    targetTime := some 2
    unpauseSignal := none
    startWallTime := some 0
    pendingJudges := []
    activeTouches := []
    fadingTouches := [] }

/-- Empty chart renderer whose chart time sits at 5 s. -/
def crC2 : GS.ChartRendererP :=
  { chart := { offset := 0, lines := [], order := [] }, time := 5, autoplay := false }

/-- Attached started scene paused-for-judge at game time 5 s. -/
def sceneC2 : GS.GameScene :=
  { userId := 1
    renderCtx := some { resDt := 1 }
    chartRenderer := some crC2
    time := { startTime := 0, pauseTime := some 3 }
    judgePauseTime := some 5
    targetTime := none
    unpauseSignal := none
    startWallTime := some 0
    pendingJudges := []
    activeTouches := []
    fadingTouches := [] }

/-- Unjudged non-fake click note at 3.5 s in the payload world. -/
def noteC1 : Note JudgeStatusP :=
  { kind := .click, time := 3.5, height := 0, speed := 1, above := true,
    multipleHint := false, fake := false, hitsound := none, judge := .notJudged }

/-- Chart renderer holding `noteC1`, chart time at 5 s. -/
def crC1 : GS.ChartRendererP :=
  { chart :=
      { offset := 0
        lines := [{ notes := [noteC1], zIndex := 0, attachUi := none }]
        order := [0] }
    time := 5
    autoplay := false }

/-- Attached started scene paused-for-judge at 5 s with a judge event
signalled at 5 s. -/
def sceneC1 : GS.GameScene :=
  { userId := 1
    renderCtx := some { resDt := 0 }
    chartRenderer := some crC1
    time := { startTime := 0, pauseTime := some 5 }
    judgePauseTime := some 5
    targetTime := none
    unpauseSignal := some 5
    startWallTime := some 0
    pendingJudges := []
    activeTouches := []
    fadingTouches := [] }

/-- Headless started scene with a buffered target time of 2 s and the
clock paused at game time 0 (the state `start()` establishes). -/
def sceneC8 : GS.GameScene :=
  { userId := 1
    renderCtx := none
    chartRenderer := none
    time := { startTime := 0, pauseTime := some 0 }
    judgePauseTime := none
    targetTime := some 2
    unpauseSignal := none
    startWallTime := some 0
    pendingJudges := []
    activeTouches := []
    fadingTouches := [] }

/-! ## Theorems -/

/-- Accessor equation for `Anim.keyframes` on `base`. -/
@[simp] theorem Anim.keyframes_base (tm : ℚ) (kfs : List Keyframe) (c : ℕ) :
    (Anim.base tm kfs c).keyframes = kfs := rfl

/-- Accessor equation for `Anim.keyframes` on `chain`. -/
@[simp] theorem Anim.keyframes_chain (tm : ℚ) (kfs : List Keyframe) (c : ℕ) (nx : Anim) :
    (Anim.chain tm kfs c nx).keyframes = kfs := rfl

/-- Accessor equation for `Anim.cursor` on `base`. -/
@[simp] theorem Anim.cursor_base (tm : ℚ) (kfs : List Keyframe) (c : ℕ) :
    (Anim.base tm kfs c).cursor = c := rfl

/-- Accessor equation for `Anim.cursor` on `chain`. -/
@[simp] theorem Anim.cursor_chain (tm : ℚ) (kfs : List Keyframe) (c : ℕ) (nx : Anim) :
    (Anim.chain tm kfs c nx).cursor = c := rfl

/-- Accessor equation for `Anim.time` on `base`. -/
@[simp] theorem Anim.time_base (tm : ℚ) (kfs : List Keyframe) (c : ℕ) :
    (Anim.base tm kfs c).time = tm := rfl

/-- Accessor equation for `Anim.time` on `chain`. -/
@[simp] theorem Anim.time_chain (tm : ℚ) (kfs : List Keyframe) (c : ℕ) (nx : Anim) :
    (Anim.chain tm kfs c nx).time = tm := rfl

/-- Characterization of the empty sample: `now_opt_inner` returns
`None` exactly on an empty keyframe list. -/
theorem Anim.nowOptInner_eq_none (a : Anim) :
    a.nowOptInner = none ↔ a.keyframes = [] := by
  by_cases h : a.keyframes.isEmpty
  · simp [Anim.nowOptInner, h, List.isEmpty_iff.mp h]
  · rw [List.isEmpty_iff] at h
    simp only [Anim.nowOptInner]
    rw [if_neg (by simpa [List.isEmpty_iff] using h)]
    constructor
    · intro hc
      exact absurd hc (by split <;> simp)
    · intro hc
      exact absurd hc h

/-- C5 counterexample: `acquire` does not consult the `.bin` file.  With
a parsed meta whose `chart_updated` matches the request but with the
companion `.bin` file absent, `acquire` still returns HIT, where the
claim demands a miss. -/
theorem C5_counterexample :
    Cache.acquire ⟨some "2024", false⟩ "2024" = .hit ∧
      (⟨some "2024", false⟩ : Cache.CacheState).binExists = false := by
  exact ⟨rfl, rfl⟩

/-- C5 amended: `acquire` returns HIT exactly when the stored meta
parses and its `chart_updated` equals the requested one; the existence
of the companion `.bin` file is not checked (a matching meta with a
missing `.bin` still yields HIT, with the returned path dangling). -/
theorem C5_acquire_hit_iff (st : Cache.CacheState) (chartUpdated : String) :
    Cache.acquire st chartUpdated = .hit ↔ st.metaParsed = some chartUpdated := by
  rcases st with ⟨meta, bin⟩
  cases meta with
  | none => simp [Cache.acquire]
  | some m =>
    by_cases h : m = chartUpdated <;>
      simp [Cache.acquire, h]

/-- C5 witness: a parsed matching meta yields HIT at a concrete
input. -/
theorem C5_acquire_hit_iff_witness :
    Cache.acquire ⟨some "a", true⟩ "a" = .hit :=
  (C5_acquire_hit_iff ⟨some "a", true⟩ "a").mpr rfl

/-- C9: the order computation includes UI-attached lines.  Evaluating
the code's order computation on a chart whose single line carries a UI
attachment yields `[0]`, while the `Chart::order` documentation (and
the claim) require UI-attached entries to be removed. -/
theorem C9_order_includes_ui_lines :
    computeOrder [uiLineEx] = [0] ∧ uiLineEx.attachUi = some .pause := by
  refine ⟨?_, rfl⟩
  have h1 : List.range 1 = [0] := rfl
  simp [computeOrder, h1, List.mergeSort_singleton]

/-- Forward scan result when every keyframe time is at most `t`: the
cursor walks to the last keyframe. -/
theorem Anim.scanForwardAux_last (kfs : List Keyframe) (t : ℚ)
    (h : ∀ i (hi : i < kfs.length), (kfs.get ⟨i, hi⟩).time ≤ t) :
    ∀ (fuel c : ℕ), c < kfs.length → kfs.length - (c + 1) ≤ fuel →
      Anim.scanForwardAux kfs t fuel c = kfs.length - 1 := by
  intro fuel
  induction fuel with
  | zero =>
    intro c hc hf
    have hce : c = kfs.length - 1 := by omega
    simp [Anim.scanForwardAux, hce]
  | succ m ih =>
    intro c hc hf
    rcases hg : kfs.get? (c + 1) with _ | kf
    · have hge : kfs.length ≤ c + 1 := List.get?_eq_none.mp hg
      simp only [Anim.scanForwardAux, hg]
      omega
    · rcases List.get?_eq_some.mp hg with ⟨hlt, hkf⟩
      have hle : kf.time ≤ t := hkf ▸ h (c + 1) hlt
      simp only [Anim.scanForwardAux, hg]
      rw [if_neg (not_lt.mpr hle)]
      exact ih (c + 1) hlt (by omega)

/-- Backward scan is the identity on the last-keyframe cursor when the
last keyframe's time is at most `t`. -/
theorem Anim.scanBackward_last (kfs : List Keyframe) (t : ℚ) (hne : kfs ≠ [])
    (h : (kfs.getLast hne).time ≤ t) :
    Anim.scanBackward kfs t (kfs.length - 1) = kfs.length - 1 := by
  have hlen : 0 < kfs.length := List.length_pos.mpr hne
  rcases hc : kfs.length - 1 with _ | c
  · simp [Anim.scanBackward]
  · have hlt : c + 1 < kfs.length := by omega
    have hg : kfs.get? (c + 1) = some (kfs.get ⟨c + 1, hlt⟩) := List.get?_eq_get hlt
    have hgl : kfs.get ⟨c + 1, hlt⟩ = kfs.getLast hne := by
      rw [List.getLast_eq_get]
      exact congrArg kfs.get (Fin.ext (show c + 1 = kfs.length - 1 by omega))
    simp only [Anim.scanBackward, hg]
    rw [if_neg (not_lt.mpr (by rw [hgl]; exact h))]

/-- C6 counterexample: the claim fails before the first keyframe.  The
interpolation ratio of `now_opt` is not clamped, so a linear animation
with keyframes `(1, 10)` and `(2, 20)` sampled at `t = 0.5 ≤ 1` (the
first keyframe's time) extrapolates to 5 instead of returning the first
keyframe's value 10. -/
theorem C6_counterexample :
    Anim.nowOpt ((Anim.base 0 [⟨1, 10, tweenLinear⟩, ⟨2, 20, tweenLinear⟩] 0).setTime 0.5)
        = .ok (some 5) ∧
      (0.5 : ℚ) ≤ 1 ∧ (5 : ℚ) ≠ 10 := by
  refine ⟨?_, by norm_num, by norm_num⟩
  norm_num [Anim.nowOpt, Anim.setTime, Anim.scanForward, Anim.scanForwardAux,
    Anim.scanBackward, Anim.nowOptInner, Anim.keyframes, Anim.cursor, Anim.time,
    fTween, tweenLinear, List.getD]

/-- C6 amended: for a non-chained animation with sorted keyframes and
an in-bounds cursor, `set_time(t)` followed by `now_opt()` returns the
last keyframe's value whenever `t` is at or past the last keyframe's
time and `t` differs from the animation's current time (the equal-time
early return skips the cursor scan); the first-keyframe clause of the
claim survives only for single-keyframe animations, where the unique
value is returned for every `t`. -/
theorem C6_boundary_sample (kfs : List Keyframe) (tm t : ℚ) (c : ℕ)
    (hne : kfs ≠ [])
    (hsort : kfs.Pairwise fun a b => a.time ≤ b.time)
    (hc : c < kfs.length)
    (htm : t ≠ tm)
    (hlast : (kfs.getLast hne).time ≤ t) :
    Anim.nowOpt ((Anim.base tm kfs c).setTime t) = .ok (some (kfs.getLast hne).value) ∧
    ∀ kf : Keyframe, Anim.nowOpt ((Anim.base tm [kf] 0).setTime t) = .ok (some kf.value) := by
  constructor
  · have hlen : 0 < kfs.length := List.length_pos.mpr hne
    have hall : ∀ i (hi : i < kfs.length), (kfs.get ⟨i, hi⟩).time ≤ t := by
      intro i hi
      by_cases hi2 : i = kfs.length - 1
      · subst hi2
        rw [show kfs.get ⟨kfs.length - 1, hi⟩ = kfs.getLast hne from
          (List.getLast_eq_get kfs hne).symm]
        exact hlast
      · have hil : i < kfs.length - 1 := by omega
        have hstep := List.pairwise_iff_get.mp hsort ⟨i, hi⟩ ⟨kfs.length - 1, by omega⟩
          (by simpa using hil)
        refine le_trans hstep ?_
        rw [show kfs.get ⟨kfs.length - 1, by omega⟩ = kfs.getLast hne from
          (List.getLast_eq_get kfs hne).symm]
        exact hlast
    have hcond : ¬(kfs.isEmpty = true ∨ t = tm) := by
      simp [List.isEmpty_iff, hne, htm]
    have hfwd : Anim.scanForward kfs t c = kfs.length - 1 :=
      Anim.scanForwardAux_last kfs t hall kfs.length c hc (by omega)
    have hbwd : Anim.scanBackward kfs t (kfs.length - 1) = kfs.length - 1 :=
      Anim.scanBackward_last kfs t hne hlast
    have hset : (Anim.base tm kfs c).setTime t
        = Anim.base t kfs (kfs.length - 1) := by
      simp only [Anim.setTime]
      rw [if_neg hcond, hfwd, hbwd]
    rw [hset]
    have hgd : kfs[kfs.length - 1]?.getD Anim.dfltKf = kfs.getLast hne := by
      rw [List.getElem?_eq_getElem (show kfs.length - 1 < kfs.length by omega)]
      rw [List.getLast_eq_getElem]
      rfl
    have hinner : Anim.nowOptInner (Anim.base t kfs (kfs.length - 1))
        = some (kfs.getLast hne).value := by
      simp [Anim.nowOptInner, List.isEmpty_iff, hne, hgd]
    simp [Anim.nowOpt, hinner]
  · intro kf
    have hset : (Anim.base tm [kf] 0).setTime t = Anim.base t [kf] 0 := by
      simp only [Anim.setTime]
      split
      · rfl
      · rfl
    rw [hset]
    simp [Anim.nowOpt, Anim.nowOptInner, List.getD]

/-- C6 witness: sampling a concrete two-keyframe sorted animation past
its last keyframe returns the last value. -/
theorem C6_boundary_sample_witness :
    Anim.nowOpt ((Anim.base 0 [⟨0, 1, tweenLinear⟩, ⟨2, 3, tweenLinear⟩] 0).setTime 5)
      = .ok (some 3) := by
  have h := (C6_boundary_sample [⟨0, 1, tweenLinear⟩, ⟨2, 3, tweenLinear⟩] 0 5 0
    (by simp)
    (by norm_num [List.pairwise_cons])
    (by simp)
    (by norm_num)
    (by norm_num [List.getLast])).1
  simpa [List.getLast] using h

/-- C10: on a chained animation whose head has keyframes, `now_opt`
unwraps the chained tail's sample, so it panics (modelled as
`Except.error`) whenever the tail's keyframe list is empty; conversely
when the head's keyframe list is empty, `now_opt` returns `None`
without touching the tail. -/
theorem C10_chain_unwrap (tm : ℚ) (kfs : List Keyframe) (c : ℕ) (tail : Anim) :
    (kfs ≠ [] → tail.keyframes = [] →
      Anim.nowOpt (.chain tm kfs c tail) = .error ()) ∧
    (kfs = [] → Anim.nowOpt (.chain tm kfs c tail) = .ok none) := by
  constructor
  · intro hne htail
    have htail_opt : Anim.nowOpt tail = .ok none := by
      have hinner : Anim.nowOptInner tail = none :=
        (Anim.nowOptInner_eq_none tail).mpr htail
      cases tail with
      | base tm2 kfs2 c2 => simp [Anim.nowOpt, hinner]
      | chain tm2 kfs2 c2 nx2 => simp [Anim.nowOpt, hinner]
    rcases hv : Anim.nowOptInner (Anim.chain tm kfs c tail) with _ | v
    · exact absurd ((Anim.nowOptInner_eq_none _).mp hv) hne
    · simp [Anim.nowOpt, hv, htail_opt]
  · intro he
    have hinner : Anim.nowOptInner (Anim.chain tm kfs c tail) = none :=
      (Anim.nowOptInner_eq_none _).mpr he
    simp [Anim.nowOpt, hinner]

/-- C10 witness: a chained animation with one head keyframe and an
empty tail panics in `now_opt`, at a concrete input. -/
theorem C10_chain_unwrap_witness :
    Anim.nowOpt (.chain 0 [⟨0, 1, tweenLinear⟩] 0 (.base 0 [] 0)) = .error () :=
  (C10_chain_unwrap 0 [⟨0, 1, tweenLinear⟩] 0 (.base 0 [] 0)).1 (by simp) rfl

/-- Note component of the engine judge pass is independent of the
line/note indices (only the emitted events carry them). -/
theorem EC.updateJudgesNote_fst (a : Bool) (t : ℚ) (li ni li' ni' : ℕ)
    (n : Note JudgeStatus) :
    (EC.updateJudgesNote a t li ni n).1 = (EC.updateJudgesNote a t li' ni' n).1 := by
  rcases n with ⟨kind, time, hh, sp, ab, mh, fake, hs, judge⟩
  cases fake <;> cases judge <;> cases kind <;>
    simp [EC.updateJudgesNote] <;> split_ifs <;> rfl

/-- Note loop of the engine judge pass maps the per-note transform. -/
theorem EC.updateJudgesNotes_fst (a : Bool) (t : ℚ) (li : ℕ) :
    ∀ (ni : ℕ) (ns : List (Note JudgeStatus)),
      (EC.updateJudgesNotes a t li ni ns).1
        = ns.map fun n => (EC.updateJudgesNote a t 0 0 n).1 := by
  intro ni ns
  induction ns generalizing ni with
  | nil => simp [EC.updateJudgesNotes]
  | cons n rest ih =>
    simp [EC.updateJudgesNotes, ih, EC.updateJudgesNote_fst a t li ni 0 0]

/-- Line loop of the engine judge pass maps the per-note transform
over every line. -/
theorem EC.updateJudgesLines_fst (a : Bool) (t : ℚ) :
    ∀ (k : ℕ) (ls : List (JudgeLine JudgeStatus)),
      (EC.updateJudgesLines a t k ls).1
        = ls.map fun l =>
            { l with notes := l.notes.map fun n => (EC.updateJudgesNote a t 0 0 n).1 } := by
  intro k ls
  induction ls generalizing k with
  | nil => simp [EC.updateJudgesLines]
  | cons l rest ih =>
    simp [EC.updateJudgesLines, ih, EC.updateJudgesNotes_fst]

/-- C3 counterexample: in the strict (non-autoplay) judge hook of the
standalone `ChartPlayer`, a non-fake `NotJudged` note at time 2 is
already marked `Judged(t, Miss)` at `t = 2.17`, although
`2.17 - 2 = 0.17` does not exceed the claimed 0.220 s cutoff: the
hook's strict miss threshold is 0.160 s, not 0.220 s. -/
theorem C3_counterexample :
    (CP.playerHook false 2.17 0 [strictLine]).1
        = [{ strictLine with notes := [{ strictNote with judge := .judged 2.17 .miss }] }]
      ∧ ¬((2.17 : ℚ) - 2 > 0.22) := by
  constructor
  · norm_num [CP.playerHook, CP.playerHookNotes, CP.playerHookNote, strictLine, strictNote]
  · norm_num

/-- C3 amended: the 0.220 s strict miss cutoff governs the engine's own
judge pass (`engine/chart.rs`): with `autoplay = false` and positive
`dt`, a non-fake `NotJudged` note transitions to `Judged` (recording no
judgement payload and emitting no event) exactly on a pass whose time
satisfies `t - note.time > 0.220`, and is left `NotJudged` otherwise —
so there a note at time 2.0 is still `NotJudged` at `t = 2.16` and
judged once `t` reaches 2.221 — while the standalone `ChartPlayer`'s
strict hook uses the 0.160 s cutoff instead (see the counterexample). -/
theorem C3_strict_miss (t dt : ℚ) (cr : EC.ChartRenderer)
    (hap : cr.autoplay = false) (hdt : 0 < dt)
    (li ni : ℕ) (n : Note JudgeStatus)
    (hn : noteAt cr li ni = some n)
    (hf : n.fake = false) (hj : n.judge = .notJudged) :
    noteAt (EC.update_judges cr t dt).1 li ni =
      some (if t - n.time > 0.22 then { n with judge := .judged } else n) := by
  unfold EC.update_judges
  rw [if_neg (not_le.mpr hdt)]
  unfold noteAt at hn ⊢
  rcases hl : cr.chart.lines.get? li with _ | l
  · rw [hl] at hn
    exact absurd hn (by simp)
  · rw [hl] at hn
    simp only [Option.some_bind] at hn
    simp only [EC.updateJudgesLines_fst, List.get?_map, hl, Option.map_some,
      Option.some_bind, List.get?_map, hn]
    have hnote : (EC.updateJudgesNote false t 0 0 n).1
        = if t - n.time > 0.22 then { n with judge := .judged } else n := by
      simp [EC.updateJudgesNote, hf, hj]
      split <;> rfl
    simp only [hap]
    simp [hn, hnote]
    exact ⟨n, by simpa [List.get?_eq_getElem?] using hn, by simpa using hnote⟩

/-- Engine frame on an active Hold before its end, past the stored tick
time: one `HoldTick` and a 0.15 s tick advance. -/
theorem EC.renderStep_hold_tick (noteTime endT : ℚ) (p : Bool) (a τ f : ℚ)
    (h1 : τ < f) (h2 : f < endT) (h3 : a < f) :
    EC.renderStep (mkHoldCR noteTime p endT a τ) f
      = (mkHoldCR noteTime p endT (a + 0.15) f, [tickEv p]) := by
  simp [EC.renderStep, EC.update_judges, EC.updateJudgesLines, EC.updateJudgesNotes,
    EC.updateJudgesNote, mkHoldCR, tickEv, not_le.mpr (sub_pos.mpr h1),
    not_le.mpr h2, h3]

/-- Engine frame on an active Hold before its end, at or before the
stored tick time: no event, state preserved. -/
theorem EC.renderStep_hold_wait (noteTime endT : ℚ) (p : Bool) (a τ f : ℚ)
    (h1 : τ < f) (h2 : f < endT) (h3 : ¬a < f) :
    EC.renderStep (mkHoldCR noteTime p endT a τ) f
      = (mkHoldCR noteTime p endT a f, []) := by
  simp [EC.renderStep, EC.update_judges, EC.updateJudgesLines, EC.updateJudgesNotes,
    EC.updateJudgesNote, mkHoldCR, not_le.mpr (sub_pos.mpr h1),
    not_le.mpr h2, h3]

/-- Engine frame on an active Hold at or past its end: one
`HoldComplete` and the terminal `Judged` commit. -/
theorem EC.renderStep_hold_complete (noteTime endT : ℚ) (p : Bool) (a τ f : ℚ)
    (h1 : τ < f) (h2 : endT ≤ f) :
    EC.renderStep (mkHoldCR noteTime p endT a τ) f
      = (mkDoneCR noteTime endT f, [completeEv p]) := by
  simp [EC.renderStep, EC.update_judges, EC.updateJudgesLines, EC.updateJudgesNotes,
    EC.updateJudgesNote, mkHoldCR, mkDoneCR, completeEv,
    not_le.mpr (sub_pos.mpr h1), h2]

/-- Engine frames after the Hold is committed are inert: the `Judged`
state is terminal and emits nothing. -/
theorem EC.renderStep_done (noteTime endT τ f : ℚ) :
    EC.renderStep (mkDoneCR noteTime endT τ) f = (mkDoneCR noteTime endT f, []) := by
  by_cases h : f - τ ≤ 0 <;>
    simp [EC.renderStep, EC.update_judges, EC.updateJudgesLines, EC.updateJudgesNotes,
      EC.updateJudgesNote, mkDoneCR, h]

/-- Frame runs split over list concatenation. -/
theorem EC.runFrames_append (cr : EC.ChartRenderer) (xs ys : List ℚ) :
    EC.runFrames cr (xs ++ ys)
      = ((EC.runFrames (EC.runFrames cr xs).1 ys).1,
         (EC.runFrames cr xs).2 ++ (EC.runFrames (EC.runFrames cr xs).1 ys).2) := by
  induction xs generalizing cr with
  | nil => simp [EC.runFrames]
  | cons x xs ih => simp [EC.runFrames, ih]

/-- Run of an active Hold over frames that all stay before `end_time`,
strictly increasing from the current chart time: some number `m` of
`HoldTick` events is emitted, the stored tick time advances by
`0.15 · m`, and (unless `m = 0`) the last advance was triggered while
still before `end_time`. -/
theorem EC.runFrames_hold_pre (noteTime endT : ℚ) (p : Bool) :
    ∀ (fs : List ℚ) (a τ : ℚ),
      (∀ f ∈ fs, f < endT) → List.Chain (· < ·) τ fs →
      ∃ m : ℕ,
        EC.runFrames (mkHoldCR noteTime p endT a τ) fs
          = (mkHoldCR noteTime p endT (a + 0.15 * (m : ℚ)) ((τ :: fs).getLast (by simp)),
             List.replicate m (tickEv p))
        ∧ (m = 0 ∨ a + 0.15 * (m : ℚ) < endT + 0.15) := by
  intro fs
  induction fs with
  | nil =>
    intro a τ _ _
    refine ⟨0, ?_, Or.inl rfl⟩
    simp [EC.runFrames]
  | cons f fs ih =>
    intro a τ hlt hchain
    rcases hchain with _ | ⟨hτf, hchain'⟩
    have hf_end : f < endT := hlt f (by simp)
    have hlt' : ∀ g ∈ fs, g < endT := fun g hg => hlt g (by simp [hg])
    have hglast : (τ :: f :: fs).getLast (by simp) = (f :: fs).getLast (by simp) :=
      List.getLast_cons (by simp)
    by_cases haf : a < f
    · obtain ⟨m, heq, hbnd⟩ := ih (a + 0.15) f hlt' hchain'
      refine ⟨m + 1, ?_, ?_⟩
      · have hcast : a + 0.15 + 0.15 * (m : ℚ) = a + 0.15 * ((m : ℚ) + 1) := by ring
        rw [show ((m + 1 : ℕ) : ℚ) = (m : ℚ) + 1 by push_cast; ring]
        simp only [EC.runFrames, EC.renderStep_hold_tick noteTime endT p a τ f hτf hf_end haf]
        rw [heq, hglast, hcast]
        simp [List.replicate_succ]
      · right
        rcases hbnd with h0 | hb
        · subst h0
          push_cast
          nlinarith [lt_trans haf hf_end]
        · push_cast
          nlinarith [hb]
    · obtain ⟨m, heq, hbnd⟩ := ih a f hlt' hchain'
      refine ⟨m, ?_, hbnd⟩
      simp only [EC.runFrames, EC.renderStep_hold_wait noteTime endT p a τ f hτf hf_end haf]
      rw [heq, hglast]
      simp

/-- C4 counterexample: a Hold entering `Hold(perfect, next_tick = 1.0)`
at `t₀ = 1.0` with `end_time = 2.0`, rendered at 20 fps (frames every
0.05 s), emits 7 `HoldTick` events — one immediately after `t₀` and one
each 0.15 s — followed by one `HoldComplete(Perfect)`, not the claimed
`floor((2 − 1)/0.15) = 6` ticks. -/
theorem C4_counterexample :
    (EC.runFrames (mkHoldCR 1 true 2 1 1) framesC4).2
        = List.replicate 7 (tickEv true) ++ [completeEv true]
      ∧ ⌊((2 : ℚ) - 1) / 0.15⌋ = 6 ∧ (7 : ℕ) ≠ 6 := by
  refine ⟨?_, ?_, by norm_num⟩
  · norm_num [EC.runFrames, EC.renderStep, EC.update_judges, EC.updateJudgesLines,
      EC.updateJudgesNotes, EC.updateJudgesNote, mkHoldCR, framesC4, List.range,
      List.range.loop, tickEv, completeEv, List.replicate]
  · rw [Int.floor_eq_iff] <;> norm_num

/-- C4 amended: for a Hold note entering `Hold(perfect = true,
next_tick = t₀)` at time `t₀` with no further external events, rendered
at strictly increasing frame times that stay below `end_time` until a
final frame at or past it, the engine emits some schedule-dependent
number `m` of `HoldTick` events — one per frame whose time exceeds the
stored `next_tick`, which then advances by 0.15 s, so that
`0.15·m < end_time − t₀ + 0.15` (at 20 fps `m = 7`, i.e. `floor + 1`,
not `floor`) — followed by exactly one `HoldComplete(Perfect)` at the
first frame with `t ≥ end_time`, after which the note is in the
terminal `Judged` state and further frames emit nothing. -/
theorem C4_hold_run (noteTime t0 endT : ℚ) (p : Bool) (pre : List ℚ) (fin : ℚ)
    (hend : t0 < endT)
    (hpre : ∀ f ∈ pre, f < endT)
    (hchain : List.Chain (· < ·) t0 pre)
    (hfin1 : endT ≤ fin)
    (hfin2 : ∀ x ∈ t0 :: pre, x < fin) :
    ∃ m : ℕ,
      EC.runFrames (mkHoldCR noteTime p endT t0 t0) (pre ++ [fin])
          = (mkDoneCR noteTime endT fin,
             List.replicate m (tickEv p) ++ [completeEv p])
        ∧ 0.15 * (m : ℚ) < endT - t0 + 0.15
        ∧ ∀ t', EC.renderStep (mkDoneCR noteTime endT fin) t'
            = (mkDoneCR noteTime endT t', []) := by
  obtain ⟨m, heq, hbnd⟩ := EC.runFrames_hold_pre noteTime endT p pre t0 t0 hpre hchain
  have hlast_mem : (t0 :: pre).getLast (by simp) ∈ t0 :: pre := List.getLast_mem _
  have hlast_fin : (t0 :: pre).getLast (by simp) < fin := hfin2 _ hlast_mem
  refine ⟨m, ?_, ?_, fun t' => EC.renderStep_done noteTime endT fin t'⟩
  · rw [EC.runFrames_append, heq]
    simp only [EC.runFrames,
      EC.renderStep_hold_complete noteTime endT p (t0 + 0.15 * (m : ℚ))
        ((t0 :: pre).getLast (by simp)) fin hlast_fin hfin1]
    simp
  · rcases hbnd with h0 | hb
    · subst h0
      push_cast
      nlinarith [hend]
    · nlinarith [hb]

/-- C4 witness: a concrete short Hold run (t₀ = 1, end_time = 1.2, one
intermediate frame at 1.1, final frame at 1.2). -/
theorem C4_hold_run_witness :
    ∃ m : ℕ,
      EC.runFrames (mkHoldCR 1 true 1.2 1 1) ([1.1] ++ [1.2])
          = (mkDoneCR 1 1.2 1.2,
             List.replicate m (tickEv true) ++ [completeEv true])
        ∧ 0.15 * (m : ℚ) < 1.2 - 1 + 0.15
        ∧ ∀ t', EC.renderStep (mkDoneCR 1 1.2 1.2) t' = (mkDoneCR 1 1.2 t', []) := by
  refine C4_hold_run 1 1 1.2 true [1.1] 1.2 (by norm_num) ?_ ?_ (by norm_num) ?_
  · intro f hf
    rcases List.mem_singleton.mp hf with rfl
    norm_num
  · refine List.Chain.cons (by norm_num) (List.Chain.nil)
  · intro x hx
    rcases List.mem_cons.mp hx with rfl | hx2
    · norm_num
    · rcases List.mem_singleton.mp hx2 with rfl
      norm_num

/-- Seek-then-resume at one wall instant pins the clock: the resulting
manager is running with game time `pos` at `wall`. -/
theorem GS.TimeManager.seek_resume (tm : GS.TimeManager) (wall pos : ℚ) :
    (tm.seek_to wall pos).resume wall = ⟨wall - pos, none⟩ := by
  rcases tm with ⟨st, _ | pt⟩ <;>
    simp [GS.TimeManager.seek_to, GS.TimeManager.resume] <;> ring

/-- Pausing does not change the reading at the pause instant. -/
theorem GS.TimeManager.now_pause (tm : GS.TimeManager) (wall : ℚ) :
    (tm.pause wall).now wall = tm.now wall := by
  rcases tm with ⟨st, _ | pt⟩ <;>
    simp [GS.TimeManager.pause, GS.TimeManager.now]

/-- Resuming does not change the reading at the resume instant. -/
theorem GS.TimeManager.now_resume (tm : GS.TimeManager) (wall : ℚ) :
    (tm.resume wall).now wall = tm.now wall := by
  rcases tm with ⟨st, _ | pt⟩ <;>
    simp [GS.TimeManager.resume, GS.TimeManager.now] <;> ring

/-- Start block with a paused clock, no judge pause and a buffered
target: seek to `max(target - 0.1, 0)`, resume, start audio there. -/
theorem GS.renderStart_seek (s : GS.GameScene) (wall tg : ℚ)
    (hp : s.time.paused = true) (hjp : s.judgePauseTime = none)
    (htg : s.targetTime = some tg) :
    GS.renderStart s wall
      = ({ s with time := ⟨wall - max (tg - 0.1) 0, none⟩ },
         [.audioPlay (max (tg - 0.1) 0)]) := by
  unfold GS.renderStart
  rw [if_pos ⟨hp, hjp⟩, htg]
  simp [GS.TimeManager.seek_resume]

/-- Start block with a paused clock, no judge pause and no buffered
target: resume in place and start audio at 0. -/
theorem GS.renderStart_zero (s : GS.GameScene) (wall : ℚ)
    (hp : s.time.paused = true) (hjp : s.judgePauseTime = none)
    (htg : s.targetTime = none) :
    GS.renderStart s wall
      = ({ s with time := s.time.resume wall }, [.audioPlay 0]) := by
  unfold GS.renderStart
  rw [if_pos ⟨hp, hjp⟩, htg]

/-- Start block is a no-op when the clock already runs or the scene is
paused-for-judge. -/
theorem GS.renderStart_skip (s : GS.GameScene) (wall : ℚ)
    (h : ¬(s.time.paused = true ∧ s.judgePauseTime = none)) :
    GS.renderStart s wall = (s, []) := by
  unfold GS.renderStart
  rw [if_neg h]

/-- Resume block without a pending unpause signal is a no-op. -/
theorem GS.renderResume_idle (s : GS.GameScene) (wall : ℚ)
    (h : s.unpauseSignal = none) :
    GS.renderResume s wall = (s, []) := by
  unfold GS.renderResume
  rw [h]

/-- Resume block with a signal but no judge pause merely consumes the
signal. -/
theorem GS.renderResume_consume (s : GS.GameScene) (wall u : ℚ)
    (hsig : s.unpauseSignal = some u) (hjp : s.judgePauseTime = none) :
    GS.renderResume s wall = ({ s with unpauseSignal := none }, []) := by
  unfold GS.renderResume
  rw [hsig]
  simp [hjp]

/-- Resume block while paused-for-judge: rewind by 1 s (clamped at 0),
resume the clock, sweep stale notes, restart audio at the rewound
position. -/
theorem GS.renderResume_rewind (s : GS.GameScene) (wall u p : ℚ)
    (hsig : s.unpauseSignal = some u) (hjp : s.judgePauseTime = some p) :
    GS.renderResume s wall
      = ({ s with
            unpauseSignal := none
            judgePauseTime := none
            time := ⟨wall - max (p - 1) 0, none⟩
            chartRenderer := s.chartRenderer.map (GS.clear_stale_notes · (max (p - 1) 0)) },
         [.audioPlay (max (p - 1) 0)]) := by
  unfold GS.renderResume
  rw [hsig]
  simp [hjp, GS.TimeManager.seek_resume]

/-- Chart block without a loaded chart is a no-op. -/
theorem GS.renderChart_none (s : GS.GameScene) (ctx : GS.RenderCtx) (wall ct : ℚ)
    (h : s.chartRenderer = none) :
    GS.renderChart s ctx wall ct = (s, ctx, []) := by
  unfold GS.renderChart
  rw [h]

/-- Chart block preserves the clock reading at the frame's wall
instant (it either leaves the clock alone or pauses it in place). -/
theorem GS.renderChart_now (s : GS.GameScene) (ctx : GS.RenderCtx) (wall ct : ℚ) :
    (GS.renderChart s ctx wall ct).1.time.now wall = s.time.now wall := by
  unfold GS.renderChart
  rcases s.chartRenderer with _ | cr
  · rfl
  · dsimp only
    split
    · simp [GS.TimeManager.now_pause]
    · rfl

/-- Touch-overlay maintenance does not affect the clock, the chart, the
pending judges, the pause bookkeeping or the rendering context flag. -/
theorem GS.render_touches_fields (s : GS.GameScene) (t : ℚ) :
    (GS.render_touches s t).time = s.time ∧
    (GS.render_touches s t).chartRenderer = s.chartRenderer ∧
    (GS.render_touches s t).pendingJudges = s.pendingJudges ∧
    (GS.render_touches s t).judgePauseTime = s.judgePauseTime ∧
    (GS.render_touches s t).renderCtx = s.renderCtx := by
  unfold GS.render_touches
  rcases hctx : s.renderCtx with _ | ctx <;> simp [hctx]

/-- Resume block leaves everything but the unpause signal unchanged
when the scene is not paused-for-judge. -/
theorem GS.renderResume_nojp (s : GS.GameScene) (wall : ℚ)
    (hjp : s.judgePauseTime = none) :
    (GS.renderResume s wall).1.time = s.time ∧
    (GS.renderResume s wall).1.judgePauseTime = none ∧
    (GS.renderResume s wall).1.chartRenderer = s.chartRenderer ∧
    (GS.renderResume s wall).1.pendingJudges = s.pendingJudges ∧
    (GS.renderResume s wall).1.targetTime = s.targetTime ∧
    (GS.renderResume s wall).2 = [] := by
  cases husig : s.unpauseSignal with
  | none =>
    rw [GS.renderResume_idle s wall husig]
    exact ⟨rfl, hjp, rfl, rfl, rfl, rfl⟩
  | some u =>
    rw [GS.renderResume_consume s wall u husig hjp]
    exact ⟨rfl, hjp, rfl, rfl, rfl, rfl⟩

/-- Clock reading of the main frame body at the frame's wall instant is
the reading after the start and resume blocks (the chart block and the
touch overlay never move it). -/
theorem GS.renderMain_time_now (s : GS.GameScene) (ctx : GS.RenderCtx) (wall : ℚ) :
    (GS.renderMain s ctx wall).1.time.now wall
      = (GS.renderResume (GS.renderStart s wall).1 wall).1.time.now wall := by
  unfold GS.renderMain
  dsimp only
  rw [(GS.render_touches_fields _ _).1]
  rw [GS.renderChart_now]

/-- Effects of the start block are among the frame's effects. -/
theorem GS.renderMain_start_effects (s : GS.GameScene) (ctx : GS.RenderCtx) (wall : ℚ)
    (e : GS.Effect) (he : e ∈ (GS.renderStart s wall).2) :
    e ∈ (GS.renderMain s ctx wall).2 := by
  unfold GS.renderMain
  dsimp only
  simp [he]

/-- Effects of the resume block are among the frame's effects. -/
theorem GS.renderMain_resume_effects (s : GS.GameScene) (ctx : GS.RenderCtx) (wall : ℚ)
    (e : GS.Effect) (he : e ∈ (GS.renderResume (GS.renderStart s wall).1 wall).2) :
    e ∈ (GS.renderMain s ctx wall).2 := by
  unfold GS.renderMain
  dsimp only
  simp [he]

/-- Past-deadline reduction of `render` to the main frame body. -/
theorem GS.render_eq_main (s : GS.GameScene) (ctx : GS.RenderCtx) (startWall now : ℚ)
    (hctx : s.renderCtx = some ctx) (hsw : s.startWallTime = some startWall)
    (hge : ¬now < GS.effectiveDeadline startWall s.targetTime) :
    GS.render s now = GS.renderMain s ctx (now / 1000) := by
  unfold GS.render
  simp only [hctx, hsw]
  rw [if_neg hge]

/-- C7: while `now` is before
`min(start_wall + 4500 ms, start_wall + target_time·1000 ms)` (just
`start_wall + 4500` without a buffered target), the frame does nothing
— no effects, no clock change, only `resource.dt := 0`; at the first
frame past the deadline with the clock still paused and no judge pause,
a buffered `target_time` makes the clock seek to
`max(target_time − 0.1, 0)` and audio start from that same offset,
and without one the clock resumes in place (game time 0 for a freshly
started scene) and audio starts at 0. -/
theorem C7_start_delay (s : GS.GameScene) (ctx : GS.RenderCtx) (startWall now : ℚ)
    (hctx : s.renderCtx = some ctx) (hsw : s.startWallTime = some startWall) :
    (now < GS.effectiveDeadline startWall s.targetTime →
      GS.render s now = ({ s with renderCtx := some { ctx with resDt := 0 } }, [])) ∧
    (¬now < GS.effectiveDeadline startWall s.targetTime →
      s.time.paused = true → s.judgePauseTime = none →
      (∀ tg, s.targetTime = some tg →
        (GS.render s now).1.time.now (now / 1000) = max (tg - 0.1) 0 ∧
        GS.Effect.audioPlay (max (tg - 0.1) 0) ∈ (GS.render s now).2) ∧
      (s.targetTime = none →
        (GS.render s now).1.time.now (now / 1000) = s.time.now (now / 1000) ∧
        GS.Effect.audioPlay 0 ∈ (GS.render s now).2)) := by
  constructor
  · intro hlt
    unfold GS.render
    simp only [hctx, hsw]
    rw [if_pos hlt]
  · intro hge hp hjp
    rw [GS.render_eq_main s ctx startWall now hctx hsw hge]
    set wall := now / 1000 with hwall
    constructor
    · intro tg htg
      have hstart := GS.renderStart_seek s wall tg hp hjp htg
      set s1 : GS.GameScene := { s with time := ⟨wall - max (tg - 0.1) 0, none⟩ } with hs1
      have hjp1 : s1.judgePauseTime = none := by simp [hs1, hjp]
      obtain ⟨ht, hj, hc, hpj, htt, hefx⟩ := GS.renderResume_nojp s1 wall hjp1
      constructor
      · rw [GS.renderMain_time_now, hstart]
        dsimp only
        rw [ht]
        simp [hs1, GS.TimeManager.now]
      · apply GS.renderMain_start_effects
        rw [hstart]
        simp
    · intro htg
      have hstart := GS.renderStart_zero s wall hp hjp htg
      set s1 : GS.GameScene := { s with time := s.time.resume wall } with hs1
      have hjp1 : s1.judgePauseTime = none := by simp [hs1, hjp]
      obtain ⟨ht, hj, hc, hpj, htt, hefx⟩ := GS.renderResume_nojp s1 wall hjp1
      constructor
      · rw [GS.renderMain_time_now, hstart]
        dsimp only
        rw [ht]
        simp [hs1, GS.TimeManager.now_resume]
      · apply GS.renderMain_start_effects
        rw [hstart]
        simp

/-- C7 witness: a concrete attached started scene with target 2 s,
rendered at `now = 2500 ms` (past the capped deadline of 2000 ms),
seeks to 1.9 and starts audio at 1.9. -/
theorem C7_start_delay_witness :
    (GS.render sceneC7 2500).1.time.now (2500 / 1000) = 1.9 ∧
    GS.Effect.audioPlay 1.9 ∈ (GS.render sceneC7 2500).2 := by
  have h := ((C7_start_delay sceneC7 ⟨0⟩ 0 2500 rfl rfl).2
    (by norm_num [GS.effectiveDeadline, sceneC7]) rfl rfl).1 2 rfl
  have hmax : max ((2 : ℚ) - 0.1) 0 = 1.9 := by norm_num
  rw [hmax] at h
  exact h

/-- Judge pass with non-positive `dt` is a no-op (no hook, no Hold
advancement, queue untouched). -/
theorem GS.update_judges_gs_nonpos (cr : GS.ChartRendererP) (t dt : ℚ)
    (pending : List GS.MpJudgeEvent) (h : dt ≤ 0) :
    GS.update_judges_gs cr t dt pending = (cr, pending, []) := by
  unfold GS.update_judges_gs
  rw [if_pos h]

/-- Chart block on a paused-for-judge frame (`dt ≤ 0`): the chart only
has its time moved, `resource.dt` records the non-positive delta, and
nothing is emitted. -/
theorem GS.renderChart_paused (s : GS.GameScene) (ctx : GS.RenderCtx) (wall ct : ℚ)
    (cr : GS.ChartRendererP) (p : ℚ)
    (hcr : s.chartRenderer = some cr) (hjp : s.judgePauseTime = some p)
    (hdt : ct - cr.time ≤ 0) :
    GS.renderChart s ctx wall ct
      = ({ s with chartRenderer := some { cr with time := ct } },
         { ctx with resDt := ct - cr.time }, []) := by
  unfold GS.renderChart
  rw [hcr]
  dsimp only
  rw [GS.update_judges_gs_nonpos _ _ _ _ hdt]
  rw [if_neg (by simp [hjp])]
  rfl

/-- Chart block on a backward-seek frame with no judge pause and no
remaining stale notes: time moves, nothing else happens. -/
theorem GS.renderChart_inert (s : GS.GameScene) (ctx : GS.RenderCtx) (wall ct : ℚ)
    (cr : GS.ChartRendererP)
    (hcr : s.chartRenderer = some cr) (hjp : s.judgePauseTime = none)
    (hdt : ct - cr.time ≤ 0)
    (hstale : GS.has_unjudged { cr with time := ct } ct = false) :
    GS.renderChart s ctx wall ct
      = ({ s with chartRenderer := some { cr with time := ct } },
         { ctx with resDt := ct - cr.time }, []) := by
  unfold GS.renderChart
  rw [hcr]
  dsimp only
  rw [GS.update_judges_gs_nonpos _ _ _ _ hdt]
  rw [if_neg (by simp [hjp, hstale])]
  rfl

/-- Chart block firing R3: with no judge pause and a stale unjudged
note after the judge pass, the scene stores
`judge_pause_time := current_time`, pauses the clock, and pauses
audio. -/
theorem GS.renderChart_fire (s : GS.GameScene) (ctx : GS.RenderCtx) (wall ct : ℚ)
    (cr : GS.ChartRendererP)
    (hcr : s.chartRenderer = some cr) (hjp : s.judgePauseTime = none)
    (hstale : GS.has_unjudged
        (GS.update_judges_gs { cr with time := ct } ct (ct - cr.time) s.pendingJudges).1
        ct = true) :
    GS.renderChart s ctx wall ct
      = ({ s with
            chartRenderer :=
              some (GS.update_judges_gs { cr with time := ct } ct (ct - cr.time)
                s.pendingJudges).1
            pendingJudges :=
              (GS.update_judges_gs { cr with time := ct } ct (ct - cr.time)
                s.pendingJudges).2.1
            judgePauseTime := some ct
            time := s.time.pause wall },
         { ctx with resDt := ct - cr.time },
         GS.hitsoundEffects
             (GS.update_judges_gs { cr with time := ct } ct (ct - cr.time)
               s.pendingJudges).1.chart
             (GS.update_judges_gs { cr with time := ct } ct (ct - cr.time)
               s.pendingJudges).2.2
           ++ [.audioPause]) := by
  unfold GS.renderChart
  rw [hcr]
  dsimp only
  rw [if_pos ⟨by simp [hjp], hstale⟩]

/-- C2: on a running frame (clock live, no pending unpause signal), if
the post-pass chart still has an unjudged non-fake note older than
0.400 s, the scene stores `judge_pause_time = current_time` and pauses
the clock and audio; and on every later frame while paused-for-judge
(no judge event yet), the chart receives exactly `paused_time` and the
recorded `dt` is 0. -/
theorem C2_strict_pause (s : GS.GameScene) (ctx : GS.RenderCtx) (startWall now : ℚ)
    (cr : GS.ChartRendererP)
    (hctx : s.renderCtx = some ctx) (hsw : s.startWallTime = some startWall)
    (hge : ¬now < GS.effectiveDeadline startWall s.targetTime)
    (hcr : s.chartRenderer = some cr)
    (hsig : s.unpauseSignal = none) :
    (s.time.paused = false → s.judgePauseTime = none →
      GS.has_unjudged
          (GS.update_judges_gs { cr with time := s.time.now (now / 1000) }
            (s.time.now (now / 1000)) (s.time.now (now / 1000) - cr.time)
            s.pendingJudges).1 (s.time.now (now / 1000)) = true →
      (GS.render s now).1.judgePauseTime = some (s.time.now (now / 1000)) ∧
      (GS.render s now).1.time.paused = true ∧
      (GS.render s now).1.time.now (now / 1000) = s.time.now (now / 1000) ∧
      GS.Effect.audioPause ∈ (GS.render s now).2) ∧
    (∀ p, s.judgePauseTime = some p → cr.time = p →
      (GS.render s now).1.chartRenderer = some { cr with time := p } ∧
      (GS.render s now).1.renderCtx = some { ctx with resDt := 0 } ∧
      (GS.render s now).1.judgePauseTime = some p ∧
      (GS.render s now).1.time = s.time ∧
      (GS.render s now).1.pendingJudges = s.pendingJudges) := by
  rw [GS.render_eq_main s ctx startWall now hctx hsw hge]
  set wall := now / 1000 with hwall
  constructor
  · intro hp hjp hstale
    unfold GS.renderMain
    dsimp only
    rw [GS.renderStart_skip s wall (by simp [hp])]
    dsimp only
    rw [GS.renderResume_idle s wall hsig]
    dsimp only
    rw [hjp]
    dsimp only [Option.getD_none, Option.isSome_none]
    rw [if_neg (by simp)]
    rw [GS.renderChart_fire s ctx wall (s.time.now wall) cr hcr hjp hstale]
    dsimp only
    obtain ⟨htf, hcf, hpf, hjf, hrf⟩ := GS.render_touches_fields
      ({ s with
          chartRenderer :=
            some (GS.update_judges_gs { cr with time := s.time.now wall }
              (s.time.now wall) (s.time.now wall - cr.time) s.pendingJudges).1
          pendingJudges :=
            (GS.update_judges_gs { cr with time := s.time.now wall }
              (s.time.now wall) (s.time.now wall - cr.time) s.pendingJudges).2.1
          judgePauseTime := some (s.time.now wall)
          time := s.time.pause wall }) (s.time.now wall)
    refine ⟨?_, ?_, ?_, ?_⟩
    · rw [hjf]
    · rw [htf]
      rcases hpt : s.time.pauseTime with _ | pt <;>
        simp [GS.TimeManager.pause, GS.TimeManager.paused, hpt]
    · rw [htf, GS.TimeManager.now_pause]
    · simp
  · intro p hjp hcrt
    unfold GS.renderMain
    dsimp only
    rw [GS.renderStart_skip s wall (by simp [hjp])]
    dsimp only
    rw [GS.renderResume_idle s wall hsig]
    dsimp only
    rw [hjp]
    dsimp only [Option.getD_some, Option.isSome_some]
    rw [if_pos rfl]
    rw [GS.renderChart_paused s { ctx with resDt := 0 } wall p cr p hcr hjp
      (by rw [hcrt]; simp)]
    dsimp only
    obtain ⟨htf, hcf, hpf, hjf, hrf⟩ := GS.render_touches_fields
      ({ s with chartRenderer := some { cr with time := p } }) p
    refine ⟨?_, ?_, ?_, ?_, ?_⟩
    · rw [hcf]
    · rw [hcrt]
      simp [sub_self]
    · rw [hjf]
      exact hjp
    · rw [htf]
    · rw [hpf]

/-- A note that went through the stale sweep at time `t` can no longer
trip the 0.400 s unjudged check at `t` (0.400 > 0.200). -/
theorem GS.clearStaleNote_clears (t : ℚ) (n : Note JudgeStatusP) :
    (!(GS.clearStaleNote t n).fake &&
      decide ((GS.clearStaleNote t n).judge = .notJudged) &&
      decide (t - (GS.clearStaleNote t n).time > 0.4)) = false := by
  unfold GS.clearStaleNote
  split_ifs with h
  · simp
  · by_cases hf : n.fake
    · simp [hf]
    · by_cases hj : n.judge = .notJudged
      · have h2 : ¬(t - n.time > 0.2) := by tauto
        have h4 : ¬(t - n.time > 0.4) := fun hh => h2 (by linarith)
        simp [hf, hj, h4]
      · simp [hj]

/-- After the stale sweep at time `t`, the chart has no unjudged
non-fake note older than 0.400 s at `t`. -/
theorem GS.has_unjudged_clear (cr : GS.ChartRendererP) (t τ : ℚ) :
    GS.has_unjudged { GS.clear_stale_notes cr t with time := τ } t = false := by
  unfold GS.has_unjudged GS.clear_stale_notes
  dsimp only
  rw [List.any_eq_false]
  intro l hl
  rw [List.mem_map] at hl
  obtain ⟨l0, hl0, rfl⟩ := hl
  dsimp only
  rw [Bool.not_eq_true, List.any_map, List.any_eq_false]
  intro n hn
  rw [Bool.not_eq_true, Function.comp_apply]
  exact GS.clearStaleNote_clears t n

/-- C1: on the first render after a judge event set the unpause signal
while paused-for-judge at `paused_time = p ≥ 0`: the clock seeks to
`max(p − 1, 0)` and runs again, audio restarts at that rewound
position, the chart is swept so that every non-fake note still
`NotJudged` with `resume_time − note.time > 0.200` becomes
`Judged(resume_time, Miss)` (and nothing else changes in the notes),
the rewind frame applies no judge events (its `dt ≤ 0`), and the scene
leaves the paused-for-judge state without immediately re-entering it. -/
theorem C1_resume_rewind (s : GS.GameScene) (ctx : GS.RenderCtx)
    (startWall now p u : ℚ) (cr : GS.ChartRendererP)
    (hctx : s.renderCtx = some ctx) (hsw : s.startWallTime = some startWall)
    (hge : ¬now < GS.effectiveDeadline startWall s.targetTime)
    (hjp : s.judgePauseTime = some p) (hsig : s.unpauseSignal = some u)
    (hcr : s.chartRenderer = some cr) (hcrt : cr.time = p) (hp0 : 0 ≤ p) :
    (GS.render s now).1.time.now (now / 1000) = max (p - 1) 0 ∧
    (GS.render s now).1.time.paused = false ∧
    GS.Effect.audioPlay (max (p - 1) 0) ∈ (GS.render s now).2 ∧
    (GS.render s now).1.chartRenderer
      = some { GS.clear_stale_notes cr (max (p - 1) 0) with time := max (p - 1) 0 } ∧
    (GS.render s now).1.judgePauseTime = none ∧
    (GS.render s now).1.unpauseSignal = none ∧
    (GS.render s now).1.pendingJudges = s.pendingJudges ∧
    (GS.clear_stale_notes cr (max (p - 1) 0)).chart.lines
      = cr.chart.lines.map fun l =>
          { l with notes := l.notes.map (GS.clearStaleNote (max (p - 1) 0)) } := by
  rw [GS.render_eq_main s ctx startWall now hctx hsw hge]
  set wall := now / 1000 with hwall
  set rT : ℚ := max (p - 1) 0 with hrT
  unfold GS.renderMain
  dsimp only
  rw [GS.renderStart_skip s wall (by simp [hjp])]
  dsimp only
  rw [GS.renderResume_rewind s wall u p hsig hjp]
  dsimp only
  rw [hcr]
  simp only [Option.map_some']
  have hct : GS.TimeManager.now ⟨wall - rT, none⟩ wall = rT := by
    simp [GS.TimeManager.now]
  rw [hct]
  simp only [Option.getD_none, Option.isSome_none, Bool.false_eq_true, if_false]
  have hcrt2 : (GS.clear_stale_notes cr rT).time = p := hcrt
  rw [GS.renderChart_inert _ _ wall rT (GS.clear_stale_notes cr rT) rfl rfl
    (by rw [hcrt2]; simp [hrT]; linarith [hp0])
    (GS.has_unjudged_clear cr rT rT)]
  dsimp only
  obtain ⟨htf, hcf, hpf, hjf, hrf⟩ := GS.render_touches_fields _ rT
  refine ⟨?_, ?_, ?_, ?_, ?_, ?_, ?_, rfl⟩
  · rw [htf]
    simp [GS.TimeManager.now]
  · rw [htf]
    simp [GS.TimeManager.paused]
  · simp
  · rw [hcf]
  · rw [hjf]
  · unfold GS.render_touches
    dsimp only
    split <;> rfl
  · rw [hpf]

/-- C2 witness: a concrete paused-for-judge frame passes the paused
time to the chart with `dt = 0` and changes nothing else. -/
theorem C2_strict_pause_witness :
    (GS.render sceneC2 5000).1.chartRenderer = some { crC2 with time := 5 } ∧
    (GS.render sceneC2 5000).1.renderCtx
      = some { ({ resDt := 1 } : GS.RenderCtx) with resDt := 0 } ∧
    (GS.render sceneC2 5000).1.judgePauseTime = some 5 ∧
    (GS.render sceneC2 5000).1.time = sceneC2.time ∧
    (GS.render sceneC2 5000).1.pendingJudges = sceneC2.pendingJudges :=
  (C2_strict_pause sceneC2 { resDt := 1 } 0 5000 crC2 rfl rfl
    (by norm_num [GS.effectiveDeadline, sceneC2]) rfl rfl).2 5 rfl rfl

/-- C1 witness: a concrete paused-for-judge scene with a signalled
judge event resumes from 4 s, restarts audio at 4 s, and sweeps the
stale note at 3.5 s. -/
theorem C1_resume_rewind_witness :
    (GS.render sceneC1 5000).1.time.now (5000 / 1000) = max (5 - 1) 0 ∧
    (GS.render sceneC1 5000).1.time.paused = false ∧
    GS.Effect.audioPlay (max (5 - 1) 0) ∈ (GS.render sceneC1 5000).2 ∧
    (GS.render sceneC1 5000).1.chartRenderer
      = some { GS.clear_stale_notes crC1 (max (5 - 1) 0) with time := max (5 - 1) 0 } ∧
    (GS.render sceneC1 5000).1.judgePauseTime = none ∧
    (GS.render sceneC1 5000).1.unpauseSignal = none ∧
    (GS.render sceneC1 5000).1.pendingJudges = sceneC1.pendingJudges ∧
    (GS.clear_stale_notes crC1 (max (5 - 1) 0)).chart.lines
      = crC1.chart.lines.map fun l =>
          { l with notes := l.notes.map (GS.clearStaleNote (max (5 - 1) 0)) } :=
  C1_resume_rewind sceneC1 { resDt := 0 } 0 5000 5 5 crC1 rfl rfl
    (by norm_num [GS.effectiveDeadline, sceneC1]) rfl rfl rfl rfl (by norm_num)

/-- Attach changes nothing but the rendering context and (possibly) the
clock. -/
theorem GS.attach_canvas_fields (s : GS.GameScene) (w : ℚ) :
    (GS.attach_canvas s w).1.chartRenderer = s.chartRenderer ∧
    (GS.attach_canvas s w).1.pendingJudges = s.pendingJudges ∧
    (GS.attach_canvas s w).1.activeTouches = s.activeTouches ∧
    (GS.attach_canvas s w).1.fadingTouches = s.fadingTouches ∧
    (GS.attach_canvas s w).1.startWallTime = s.startWallTime ∧
    (GS.attach_canvas s w).1.targetTime = s.targetTime ∧
    (GS.attach_canvas s w).1.judgePauseTime = s.judgePauseTime ∧
    (GS.attach_canvas s w).1.unpauseSignal = s.unpauseSignal := by
  unfold GS.attach_canvas
  by_cases h : s.renderCtx.isSome
  · simp [h]
  · simp only [h, Bool.false_eq_true, if_false]
    by_cases h2 : s.startWallTime.isSome
    · rcases htg : s.targetTime with _ | tg <;> simp [h2, htg]
    · simp [h2]

/-- Attach leaves the clock untouched when the scene is not started or
has no buffered target time. -/
theorem GS.attach_canvas_time (s : GS.GameScene) (w : ℚ)
    (h : s.startWallTime = none ∨ s.targetTime = none) :
    (GS.attach_canvas s w).1.time = s.time := by
  unfold GS.attach_canvas
  by_cases hctx : s.renderCtx.isSome
  · simp [hctx]
  · simp only [hctx, Bool.false_eq_true, if_false]
    rcases h with h | h
    · simp [h]
    · by_cases h2 : s.startWallTime.isSome <;> simp [h, h2]

/-- Detach only drops the rendering context. -/
theorem GS.detach_canvas_state (s : GS.GameScene) :
    (GS.detach_canvas s).1 = { s with renderCtx := none } := by
  rcases s with ⟨uid, rc, crr, tm, jp, tt, us, swt, pj, atc, ftc⟩
  cases rc <;> rfl

/-- C8 amended: the attach → detach → attach sequence preserves the
loaded chart (with its judge statuses) and the pending judge and touch
queues; the clock is also preserved provided the scene is not started
or has no buffered target time (otherwise each effective attach seeks
the clock to `max(target_time − 0.1, 0)`, see the counterexample); and
attaching an already-attached scene is a no-op. -/
theorem C8_attach_cycle (s : GS.GameScene) (w1 w2 w3 : ℚ) :
    ((GS.attach_canvas ((GS.detach_canvas (GS.attach_canvas s w1).1).1) w2).1.chartRenderer
        = s.chartRenderer ∧
     (GS.attach_canvas ((GS.detach_canvas (GS.attach_canvas s w1).1).1) w2).1.pendingJudges
        = s.pendingJudges ∧
     (GS.attach_canvas ((GS.detach_canvas (GS.attach_canvas s w1).1).1) w2).1.activeTouches
        = s.activeTouches ∧
     (GS.attach_canvas ((GS.detach_canvas (GS.attach_canvas s w1).1).1) w2).1.fadingTouches
        = s.fadingTouches) ∧
    (s.startWallTime = none ∨ s.targetTime = none →
      (GS.attach_canvas ((GS.detach_canvas (GS.attach_canvas s w1).1).1) w2).1.time
        = s.time) ∧
    (s.renderCtx.isSome = true → GS.attach_canvas s w3 = (s, [])) := by
  obtain ⟨a1c, a1p, a1a, a1f, a1s, a1t, a1j, a1u⟩ := GS.attach_canvas_fields s w1
  set s1 := (GS.attach_canvas s w1).1 with hs1
  have hdet := GS.detach_canvas_state s1
  set s2 := (GS.detach_canvas s1).1 with hs2
  obtain ⟨b1c, b1p, b1a, b1f, b1s, b1t, b1j, b1u⟩ := GS.attach_canvas_fields s2 w2
  have h2c : s2.chartRenderer = s.chartRenderer := by rw [hdet]; exact a1c
  have h2p : s2.pendingJudges = s.pendingJudges := by rw [hdet]; exact a1p
  have h2a : s2.activeTouches = s.activeTouches := by rw [hdet]; exact a1a
  have h2f : s2.fadingTouches = s.fadingTouches := by rw [hdet]; exact a1f
  refine ⟨⟨?_, ?_, ?_, ?_⟩, ?_, ?_⟩
  · rw [b1c, h2c]
  · rw [b1p, h2p]
  · rw [b1a, h2a]
  · rw [b1f, h2f]
  · intro h
    have h2s : s2.startWallTime = s.startWallTime := by rw [hdet]; exact a1s
    have h2t : s2.targetTime = s.targetTime := by rw [hdet]; exact a1t
    have hb := GS.attach_canvas_time s2 w2
      (by rcases h with h | h
          · exact Or.inl (by rw [h2s, h])
          · exact Or.inr (by rw [h2t, h]))
    rw [hb, hdet]
    rw [GS.attach_canvas_time s w1 h]
  · intro h
    unfold GS.attach_canvas
    rw [if_pos h]

/-- C8 counterexample: on a headless started scene with a buffered
target time of 2 s and the clock paused at game time 0, the
attach → detach → attach sequence changes the clock: the attaches seek
to `max(2 − 0.1, 0) = 1.9`, so the final clock reads 1.9 instead of
0. -/
theorem C8_counterexample :
    (GS.attach_canvas ((GS.detach_canvas (GS.attach_canvas sceneC8 5).1).1) 5).1.time.now 5
        = 1.9 ∧
      sceneC8.time.now 5 = 0 ∧ (1.9 : ℚ) ≠ 0 := by
  refine ⟨?_, ?_, by norm_num⟩
  · norm_num [GS.attach_canvas, GS.detach_canvas, sceneC8, GS.TimeManager.seek_to,
      GS.TimeManager.now]
  · norm_num [sceneC8, GS.TimeManager.now]

/-- C8 witness: on a freshly created headless scene the cycle preserves
the clock, the chart and the queues. -/
theorem C8_attach_cycle_witness :
    (GS.attach_canvas ((GS.detach_canvas (GS.attach_canvas (GS.new_headless 1 0) 5).1).1) 6).1.time
        = (GS.new_headless 1 0).time ∧
      (GS.attach_canvas ((GS.detach_canvas (GS.attach_canvas (GS.new_headless 1 0) 5).1).1) 6).1.chartRenderer
        = (GS.new_headless 1 0).chartRenderer := by
  obtain ⟨h1, h2, h3⟩ := C8_attach_cycle (GS.new_headless 1 0) 5 6 7
  exact ⟨h2 (Or.inl rfl), h1.1⟩

/-- C3 witness: the engine strict pass at `t = 2.221` marks the
concrete note at time 2 as judged. -/
theorem C3_strict_miss_witness :
    noteAt (EC.update_judges ecStrictCr 2.221 0.01).1 0 0
      = some { ecStrictNote with judge := .judged } := by
  have h := C3_strict_miss 2.221 0.01 ecStrictCr rfl (by norm_num) 0 0 ecStrictNote
    (by simp [noteAt, ecStrictCr]) rfl rfl
  rw [h]
  norm_num [ecStrictNote]

end PWM
